import Mathlib

/-!
# Replay synchronisation engine

A shallow embedding of `Tools/Replay/Replay.cpp`: the update-rate detector
`find_update_rate` (with the `IMU2Counter` reader it drives), the per-record
dispatcher `Replay::read_sensors`, the override staging of
`Replay::set_user_parameters`, the home-initialisation loop of `Replay::setup`
and the arm-time gate of `Replay::loop`.

The log decoder, the estimator and the sensor front ends are external to the
file.  A decoded log message is a `LogRecord`; the values the external objects
report while a message is being handled (`gps.status()`, `ahrs.healthy()`,
`ahrs.get_home().lat`, `hal.scheduler->millis()`) travel with the record.
Calls into the external objects are recorded as `Event`s, in program order.
-/

namespace ReplayTool

/-! ## Data model -/

/-- The `streq(x, y)` macro of the source: `!strcmp(x, y)`. -/
def streq (x y : String) : Bool := decide (x = y)

/-- A decoded log message together with the readings of the external objects at
the time the message is handled.

* `type`: the tag `update(type)` stores into `char type[5]`;
* `TimeUS`, `TimeMS`: the value of the field of that name, when the message has one;
* `gps_status`: what `gps.status()` returns while the message is handled;
* `ahrs_healthy`: what `ahrs.healthy()` returns after `ahrs.update()`;
* `home_lat`: what `ahrs.get_home().lat` returns after `ahrs.update()`;
* `millis`: what `hal.scheduler->millis()` returns once the message has been read. -/
structure LogRecord where
  type : String
  TimeUS : Option Nat := none
  TimeMS : Option Nat := none
  gps_status : Nat := 0
  ahrs_healthy : Bool := false
  home_lat : Int := 0
  millis : Nat := 0
  deriving DecidableEq, Repr

/-- The enumerator `AP_GPS::GPS_OK_FIX_3D` (`NO_GPS = 0`, `NO_FIX = 1`,
`GPS_OK_FIX_2D = 2`, `GPS_OK_FIX_3D = 3`); the header is not part of the file. -/
def GPS_OK_FIX_3D : Nat := 3

/-- One entry of `user_parameters[]`: the name and the `float` value, the latter
carried as its bit pattern (it is only ever handed on). -/
structure UserParameter where
  name : String
  value : Nat
  deriving DecidableEq, Repr

/-- Observable actions of the program, one constructor per call or message. -/
inductive Event where
  /-- Call of `logreader.set_parameter(name, value)`. -/
  | set_parameter (name : String) (value : Nat)
  /-- The message `Failed to set parameter`. -/
  | failed_to_set_parameter (name : String) (value : Nat)
  /-- Call of `gps.update()`. -/
  | gps_update
  /-- Call of `ahrs.estimate_wind()`. -/
  | estimate_wind
  /-- Call of `compass.read()`. -/
  | compass_read
  /-- Call of `ahrs.set_airspeed(&airspeed)`. -/
  | set_airspeed
  /-- Call of `barometer.update()`. -/
  | baro_update
  /-- The message `Barometer initialised` followed by `barometer.update_calibration()`. -/
  | baro_update_calibration
  /-- The message `Have FRAM framing`. -/
  | have_fram_framing
  /-- Call of `ahrs.update()`: the estimator update. -/
  | ahrs_update
  /-- Call of `inertial_nav.update(ins.get_delta_time())`. -/
  | inertial_nav_update
  /-- The three writes `Log_Write_EKF`, `Log_Write_AHRS2`, `Log_Write_POS`. -/
  | log_write
  /-- The message `AHRS health: h at t`. -/
  | ahrs_health (healthy : Bool) (at_ms : Nat)
  /-- The message `GPS Lock at` followed by `ahrs.set_home(loc)` and
  `compass.set_initial_location`. -/
  | set_home
  /-- Call of `hal.util->set_soft_armed(true)` followed by the message `Arming at t ms`. -/
  | arming (at_ms : Nat)
  /-- The rows written to the plot and EKF tables for an `ATT` message. -/
  | att_output
  /-- The message `End of log at`. -/
  | end_of_log
  deriving DecidableEq, Repr

/-! ## Update-rate detection -/

/-- The modulus of `uint64_t` arithmetic. -/
def UINT64_MOD : Nat := 18446744073709551616

/-- Subtraction of two `uint64_t` values. -/
def sub_u64 (a b : Nat) : Nat := (a % UINT64_MOD + (UINT64_MOD - b % UINT64_MOD)) % UINT64_MOD

/-- Addition of two `uint64_t` values. -/
def add_u64 (a b : Nat) : Nat := (a + b) % UINT64_MOD

/-- The conversion `int(x)` of a `uint64_t` to a 32-bit `int`. -/
def int_of_u64 (x : Nat) : Int :=
  let low := x % 4294967296
  if low < 2147483648 then (low : Int) else (low : Int) - 4294967296

/-- The reader class `IMU2Counter`; its one data member is not initialised by the
constructor. -/
structure IMU2Counter where
  last_imu2_timestamp : Nat
  deriving DecidableEq, Repr

/-- Method `IMU2Counter::handle_msg`: messages other than `IMU2` are skipped; an `IMU2`
message stores its `TimeUS`, else its `TimeMS` times 1000, else leaves the
member as it was. -/
def IMU2Counter.handle_msg (self : IMU2Counter) (msg : LogRecord) : IMU2Counter :=
  if msg.type ≠ "IMU2" then self
  else
    match msg.TimeUS with
    | some t => { last_imu2_timestamp := t % UINT64_MOD }
    | none =>
      match msg.TimeMS with
      | some t => { last_imu2_timestamp := (t % UINT64_MOD * 1000) % UINT64_MOD }
      | none => self

/-- The sampling loop of `find_update_rate` (`while (samplecount < 10)`), started
from the given values of `samplecount`, `prev` and `samplesum`; it yields the
final `samplecount` and `samplesum`.  The call `reader.update(type)` belongs to
the external `DataFlashFileReader`: it takes the next message of the log, hands
it to `handle_msg` and reports its type, and it fails on an exhausted log. -/
def find_update_rate_samples (reader : IMU2Counter) (samplecount prev samplesum : Nat) :
    List LogRecord → Nat × Nat
  | [] => (samplecount, samplesum)
  | msg :: rest =>
    if samplecount < 10 then
      let reader1 := reader.handle_msg msg
      if streq msg.type "IMU2" then
        if prev = 0 then
          find_update_rate_samples reader1 samplecount reader1.last_imu2_timestamp samplesum rest
        else
          find_update_rate_samples reader1 (samplecount + 1) reader1.last_imu2_timestamp
            (add_u64 samplesum (sub_u64 reader1.last_imu2_timestamp prev)) rest
      else
        find_update_rate_samples reader1 samplecount prev samplesum rest
    else (samplecount, samplesum)

/-- How a run of `find_update_rate` ends. -/
inductive Outcome where
  /-- The function returns the value. -/
  | returned (rate : Int)
  /-- The process terminates through `exit(code)`. -/
  | exited (code : Nat)
  /-- The integer division `1000000/int(...)` has a zero divisor. -/
  | division_by_zero
  deriving DecidableEq, Repr

/-- The divisor `int(samplesum/samplecount)`. -/
def mean_interval (samplesum samplecount : Nat) : Int :=
  int_of_u64 (samplesum / samplecount)

/-- The value `1000000/int(samplesum/samplecount)` stored into `float rate`: an
integer quotient truncated towards zero, of magnitude at most 1000000, which a
`float` holds exactly. -/
def computed_rate (samplesum samplecount : Nat) : Int :=
  Int.tdiv 1000000 (mean_interval samplesum samplecount)

/-- The bucketing `if (abs(rate - 50) < 5) ...` at the end of `find_update_rate`.
The differences `rate - 50`, ... are whole numbers that a `float` holds exactly,
so the integer and the floating overload of `abs` agree on them. -/
def rate_bucket (rate : Int) : Outcome :=
  if abs (rate - 50) < 5 then Outcome.returned 50
  else if abs (rate - 100) < 10 then Outcome.returned 100
  else if abs (rate - 200) < 10 then Outcome.returned 200
  else if abs (rate - 400) < 20 then Outcome.returned 400
  else Outcome.exited 1

/-- Function `find_update_rate(filename)`.  Here `log` is `none` when `open_log` fails and the
message list of the file otherwise; `reader` is the freshly constructed
`IMU2Counter`. -/
def find_update_rate (log : Option (List LogRecord)) (reader : IMU2Counter) : Outcome :=
  match log with
  | none => Outcome.exited 1
  | some msgs =>
    let samples := find_update_rate_samples reader 0 0 0 msgs
    let samplecount := samples.1
    let samplesum := samples.2
    if samplecount < 10 then Outcome.exited 1
    else if mean_interval samplesum samplecount = 0 then Outcome.division_by_zero
    else rate_bucket (computed_rate samplesum samplecount)

/-! ## The replay object -/

/-- The data members of `class Replay` that the dispatcher reads or writes,
together with the soft-armed flag kept by `hal.util`. -/
structure Replay where
  done_parameters : Bool
  done_baro_init : Bool
  done_home_init : Bool
  arm_time_ms : Int
  ahrs_healthy : Bool
  have_imu2 : Bool
  have_imt : Bool
  have_imt2 : Bool
  have_fram : Bool
  use_imt : Bool
  user_parameters : List UserParameter
  soft_armed : Bool
  deriving DecidableEq, Repr

/-- The static object `replay` after `_parse_command_line`: members without an
initialiser are zero, `use_imt` is cleared by `--no-imt`, `arm_time_ms` is -1
unless `--arm-time` sets it, and each `--parm` appends to `user_parameters`.
`setup` starts disarmed. -/
def Replay.init (use_imt : Bool) (arm_time_ms : Int) (user_parameters : List UserParameter) :
    Replay :=
  { done_parameters := false, done_baro_init := false, done_home_init := false,
    arm_time_ms := arm_time_ms, ahrs_healthy := false,
    have_imu2 := false, have_imt := false, have_imt2 := false, have_fram := false,
    use_imt := use_imt, user_parameters := user_parameters, soft_armed := false }

/-- What one call of `read_sensors` leaves behind: the members, the actions taken,
and the exit code when the call ended the process. -/
structure Step where
  state : Replay
  events : List Event
  exit : Option Nat
  deriving DecidableEq, Repr

/-- The `for` loop of `Replay::set_user_parameters` over the entries not yet
handled: each entry is passed to `logreader.set_parameter`, and the first
refusal prints the failure and calls `exit(1)`.  `set_parameter` is the answer of
the external parameter system. -/
def set_user_parameters_loop (set_parameter : String → Nat → Bool) :
    List UserParameter → List Event × Option Nat
  | [] => ([], none)
  | p :: rest =>
    if set_parameter p.name p.value then
      let tail := set_user_parameters_loop set_parameter rest
      (Event.set_parameter p.name p.value :: tail.1, tail.2)
    else
      ([Event.set_parameter p.name p.value, Event.failed_to_set_parameter p.name p.value],
        some 1)

/-- Method `Replay::set_user_parameters`. -/
def Replay.set_user_parameters (set_parameter : String → Nat → Bool) (self : Replay) :
    List Event × Option Nat :=
  set_user_parameters_loop set_parameter self.user_parameters

/-- Lines 479-482 of `read_sensors`: the first message that is neither `FMT` nor
`PARM` sets `done_parameters` and calls `set_user_parameters`. -/
def Replay.stage_parameters (set_parameter : String → Nat → Bool) (self : Replay)
    (type : String) : Replay × List Event × Option Nat :=
  if !self.done_parameters && !streq type "FMT" && !streq type "PARM" then
    let applied := self.set_user_parameters set_parameter
    ({ self with done_parameters := true }, applied.1, applied.2)
  else (self, [], none)

/-- Lines 483-491 of `read_sensors`: the flags `have_imu2`, `have_imt`, `have_imt2`. -/
def Replay.note_formats (self : Replay) (type : String) : Replay :=
  { self with
    have_imu2 := if streq type "IMU2" then true else self.have_imu2
    have_imt := if self.use_imt && streq type "IMT" then true else self.have_imt
    have_imt2 := if self.use_imt && streq type "IMT2" then true else self.have_imt2 }

/-- Lines 493-509 of `read_sensors`: the side updates for `GPS`, `MAG`, `ARSP` and
`BARO` messages. -/
def Replay.side_updates (self : Replay) (r : LogRecord) : Replay × List Event :=
  if streq r.type "GPS" then
    (self, Event.gps_update ::
      (if GPS_OK_FIX_3D ≤ r.gps_status then [Event.estimate_wind] else []))
  else if streq r.type "MAG" then (self, [Event.compass_read])
  else if streq r.type "ARSP" then (self, [Event.set_airspeed])
  else if streq r.type "BARO" then
    if !self.done_baro_init then
      ({ self with done_baro_init := true }, [Event.baro_update, Event.baro_update_calibration])
    else (self, [Event.baro_update])
  else (self, [])

/-- Lines 512-516 of `read_sensors`: a `FRAM` message sets `have_fram`, with a
message the first time. -/
def Replay.frame_sync (self : Replay) (type : String) : Replay × List Event :=
  if streq type "FRAM" then
    if !self.have_fram then ({ self with have_fram := true }, [Event.have_fram_framing])
    else (self, [])
  else (self, [])

/-- Lines 511-532 of `read_sensors`: the value of `run_ahrs`, from the flags as they
stand once lines 483-516 have run. -/
def Replay.run_ahrs (self : Replay) (type : String) : Bool :=
  -- bool run_ahrs = false; if (streq(type,"FRAM")) { ... run_ahrs = true; }
  let run_ahrs0 : Bool := streq type "FRAM"
  -- if (have_imt) { ... }
  let run_ahrs1 : Bool :=
    if self.have_imt then
      if (streq type "IMT" && !self.have_imt2) || (streq type "IMT2" && self.have_imt2) then true
      else run_ahrs0
    else run_ahrs0
  -- special handling of IMU messages as these trigger an ahrs.update()
  if !self.have_fram && !self.have_imt &&
      ((streq type "IMU" && !self.have_imu2) || (streq type "IMU2" && self.have_imu2)) then true
  else run_ahrs1

/-- Lines 534-546 of `read_sensors`: the body of `if (run_ahrs)`. -/
def Replay.update_estimator (self : Replay) (r : LogRecord) : Replay × List Event :=
  let nav : List Event := if r.home_lat ≠ 0 then [Event.inertial_nav_update] else []
  if r.ahrs_healthy != self.ahrs_healthy then
    ({ self with ahrs_healthy := r.ahrs_healthy },
      Event.ahrs_update :: (nav ++ [Event.log_write, Event.ahrs_health r.ahrs_healthy r.millis]))
  else (self, Event.ahrs_update :: (nav ++ [Event.log_write]))

/-- Method `Replay::read_sensors(type)`, for the message `r` just read: the blocks
above in program order.  A refused override ends the process inside the first
block. -/
def Replay.read_sensors (set_parameter : String → Nat → Bool) (self : Replay)
    (r : LogRecord) : Step :=
  let staged := self.stage_parameters set_parameter r.type
  match staged.2.2 with
  | some code => { state := staged.1, events := staged.2.1, exit := some code }
  | none =>
    let noted := staged.1.note_formats r.type
    let side := noted.side_updates r
    let framed := side.1.frame_sync r.type
    if framed.1.run_ahrs r.type then
      let updated := framed.1.update_estimator r
      { state := updated.1, events := staged.2.1 ++ side.2 ++ framed.2 ++ updated.2,
        exit := none }
    else
      { state := framed.1, events := staged.2.1 ++ side.2 ++ framed.2, exit := none }

/-- The course of a run: the members at its end, the actions of each message
handled (in order, one entry per message), and the exit code if the process
ended. -/
structure Run where
  state : Replay
  trace : List (List Event)
  exit : Option Nat
  deriving DecidableEq, Repr

/-- Calls of `read_sensors` on each message of a sequence in turn, up to the call
that ends the process. -/
def Replay.read_sensors_seq (set_parameter : String → Nat → Bool) :
    Replay → List LogRecord → Run
  | self, [] => { state := self, trace := [], exit := none }
  | self, r :: rest =>
    let step := self.read_sensors set_parameter r
    match step.exit with
    | some code => { state := step.state, trace := [step.events], exit := some code }
    | none =>
      let run := Replay.read_sensors_seq set_parameter step.state rest
      { state := run.state, trace := step.events :: run.trace, exit := run.exit }

/-! ## Home initialisation and the main loop -/

/-- The actions of one pass through a loop body: those before the call of
`read_sensors`, those of the call, those after it. -/
structure Iteration where
  before : List Event
  sensors : List Event
  after : List Event
  deriving DecidableEq, Repr

/-- The course of `setup` followed by `loop`: one `Iteration` per pass through a
loop body. -/
structure Session where
  state : Replay
  trace : List Iteration
  exit : Option Nat
  deriving DecidableEq, Repr

/-- The conversion `(uint32_t)arm_time_ms`. -/
def uint32_of (x : Int) : Nat := (x % 4294967296).toNat

/-- The arm-time gate at the head of the body of `Replay::loop`, with `now` the
value of `hal.scheduler->millis()`. -/
def Replay.arm_gate (self : Replay) (now : Nat) : Replay × List Event :=
  if decide (0 ≤ self.arm_time_ms) && decide (uint32_of self.arm_time_ms < now) then
    if !self.soft_armed then ({ self with soft_armed := true }, [Event.arming now])
    else (self, [])
  else (self, [])

/-- The gate applied at each of a sequence of clock readings in turn: for each
step the members after it and the actions it took. -/
def Replay.arm_gate_seq : Replay → List Nat → List (Replay × List Event)
  | _, [] => []
  | self, now :: rest =>
    let gated := self.arm_gate now
    gated :: Replay.arm_gate_seq gated.1 rest

/-- Method `Replay::loop`: `now` is the clock reading at the head of the first pass,
`records` what `logreader.update` still delivers.  The pass that finds the log
exhausted ends the process with `exit(0)`. -/
def Replay.loop (set_parameter : String → Nat → Bool) :
    Replay → Nat → List LogRecord → Session
  | self, now, [] =>
    let gated := self.arm_gate now
    { state := gated.1, trace := [⟨gated.2, [], [Event.end_of_log]⟩], exit := some 0 }
  | self, now, r :: rest =>
    let gated := self.arm_gate now
    let step := gated.1.read_sensors set_parameter r
    match step.exit with
    | some code =>
      { state := step.state, trace := [⟨gated.2, step.events, []⟩], exit := some code }
    | none =>
      let after : List Event := if streq r.type "ATT" then [Event.att_output] else []
      let run := Replay.loop set_parameter step.state r.millis rest
      { state := run.state, trace := ⟨gated.2, step.events, after⟩ :: run.trace,
        exit := run.exit }

/-- The loop `while (!done_home_init)` that ends `Replay::setup`, followed by
`Replay::loop` on what is left of the log once `setup` returns. -/
def Replay.setup (set_parameter : String → Nat → Bool) :
    Replay → Nat → List LogRecord → Session
  | self, now, [] => Replay.loop set_parameter self now []
  | self, now, r :: rest =>
    if self.done_home_init then Replay.loop set_parameter self now (r :: rest)
    else
      let step := self.read_sensors set_parameter r
      match step.exit with
      | some code =>
        { state := step.state, trace := [⟨[], step.events, []⟩], exit := some code }
      | none =>
        let s := step.state
        let commit : Bool :=
          streq r.type "GPS" && decide (GPS_OK_FIX_3D ≤ r.gps_status) &&
            s.done_baro_init && !s.done_home_init
        let s1 : Replay := if commit then { s with done_home_init := true } else s
        let after : List Event := if commit then [Event.set_home] else []
        let run := Replay.setup set_parameter s1 r.millis rest
        { state := run.state, trace := ⟨[], step.events, after⟩ :: run.trace,
          exit := run.exit }

/-- The whole replay of a log: `setup` from the initial members, then `loop`. -/
def Replay.replay (set_parameter : String → Nat → Bool) (use_imt : Bool) (arm_time_ms : Int)
    (user_parameters : List UserParameter) (now : Nat) (records : List LogRecord) : Session :=
  Replay.setup set_parameter (Replay.init use_imt arm_time_ms user_parameters) now records

/-! ## Sample inputs -/

/-- A log of `n` IMU2 messages whose `TimeUS` stamps start at 1000 and lie `period`
microseconds apart. -/
def imu2_log (period n : Nat) : List LogRecord :=
  (List.range n).map fun i => { type := "IMU2", TimeUS := some (1000 + period * i) }

/-! ## Update-rate detection: proofs -/

theorem rate_bucket_50 (rate : Int) (h1 : 46 ≤ rate) (h2 : rate ≤ 54) :
    rate_bucket rate = Outcome.returned 50 := by
  have h : abs (rate - 50) < 5 := by rw [abs_lt]; constructor <;> omega
  simp [rate_bucket, h]

theorem rate_bucket_100 (rate : Int) (h1 : 91 ≤ rate) (h2 : rate ≤ 109) :
    rate_bucket rate = Outcome.returned 100 := by
  have ha : ¬ abs (rate - 50) < 5 := by rw [abs_lt]; omega
  have h : abs (rate - 100) < 10 := by rw [abs_lt]; constructor <;> omega
  simp [rate_bucket, ha, h]

theorem rate_bucket_200 (rate : Int) (h1 : 191 ≤ rate) (h2 : rate ≤ 209) :
    rate_bucket rate = Outcome.returned 200 := by
  have ha : ¬ abs (rate - 50) < 5 := by rw [abs_lt]; omega
  have hb : ¬ abs (rate - 100) < 10 := by rw [abs_lt]; omega
  have h : abs (rate - 200) < 10 := by rw [abs_lt]; constructor <;> omega
  simp [rate_bucket, ha, hb, h]

theorem rate_bucket_400 (rate : Int) (h1 : 381 ≤ rate) (h2 : rate ≤ 419) :
    rate_bucket rate = Outcome.returned 400 := by
  have ha : ¬ abs (rate - 50) < 5 := by rw [abs_lt]; omega
  have hb : ¬ abs (rate - 100) < 10 := by rw [abs_lt]; omega
  have hc : ¬ abs (rate - 200) < 10 := by rw [abs_lt]; omega
  have h : abs (rate - 400) < 20 := by rw [abs_lt]; constructor <;> omega
  simp [rate_bucket, ha, hb, hc, h]

theorem rate_bucket_none (rate : Int)
    (h50 : ¬ (46 ≤ rate ∧ rate ≤ 54)) (h100 : ¬ (91 ≤ rate ∧ rate ≤ 109))
    (h200 : ¬ (191 ≤ rate ∧ rate ≤ 209)) (h400 : ¬ (381 ≤ rate ∧ rate ≤ 419)) :
    rate_bucket rate = Outcome.exited 1 := by
  have ha : ¬ abs (rate - 50) < 5 := by rw [abs_lt]; omega
  have hb : ¬ abs (rate - 100) < 10 := by rw [abs_lt]; omega
  have hc : ¬ abs (rate - 200) < 10 := by rw [abs_lt]; omega
  have hd : ¬ abs (rate - 400) < 20 := by rw [abs_lt]; omega
  simp [rate_bucket, ha, hb, hc, hd]

/-- With a zero divisor the quotient that Lean computes is zero, which lies in no
window. -/
theorem computed_rate_of_mean_zero (samplesum samplecount : Nat)
    (h : mean_interval samplesum samplecount = 0) :
    computed_rate samplesum samplecount = 0 := by
  simp [computed_rate, h]

/-- A negative divisor gives a quotient that is not positive. -/
theorem computed_rate_of_mean_neg (samplesum samplecount : Nat)
    (h : mean_interval samplesum samplecount < 0) :
    computed_rate samplesum samplecount ≤ 0 := by
  unfold computed_rate
  generalize mean_interval samplesum samplecount = m at h
  obtain ⟨k, rfl⟩ := Int.eq_negSucc_of_lt_zero h
  have : Int.tdiv 1000000 (Int.negSucc k) = -((1000000 / (k + 1) : Nat) : Int) := rfl
  rw [this]
  exact Int.neg_nonpos_of_nonneg (Int.ofNat_zero_le _)

/-- Once ten samples are in and the divisor is not zero, `find_update_rate` is the
bucketing of the computed rate. -/
theorem find_update_rate_of_ten (reader : IMU2Counter) (msgs : List LogRecord)
    (hcount : 10 ≤ (find_update_rate_samples reader 0 0 0 msgs).1)
    (hmean : mean_interval (find_update_rate_samples reader 0 0 0 msgs).2
      (find_update_rate_samples reader 0 0 0 msgs).1 ≠ 0) :
    find_update_rate (some msgs) reader =
      rate_bucket (computed_rate (find_update_rate_samples reader 0 0 0 msgs).2
        (find_update_rate_samples reader 0 0 0 msgs).1) := by
  simp only [find_update_rate]
  rw [if_neg (by omega), if_neg hmean]

/-- C1. Rate bucketing: for every log whose sampling loop collects ten IMU2
intervals, a computed rate (1000000 divided by the mean interval) from 46 to 54
makes `find_update_rate` return 50, from 91 to 109 return 100, from 191 to 209
return 200, from 381 to 419 return 400, and a computed rate of 45 makes it end the
process with exit code 1. -/
theorem find_update_rate_buckets (reader : IMU2Counter) (msgs : List LogRecord)
    (hcount : (find_update_rate_samples reader 0 0 0 msgs).1 = 10) :
    (46 ≤ computed_rate (find_update_rate_samples reader 0 0 0 msgs).2 10 ∧
        computed_rate (find_update_rate_samples reader 0 0 0 msgs).2 10 ≤ 54 →
      find_update_rate (some msgs) reader = Outcome.returned 50) ∧
    (91 ≤ computed_rate (find_update_rate_samples reader 0 0 0 msgs).2 10 ∧
        computed_rate (find_update_rate_samples reader 0 0 0 msgs).2 10 ≤ 109 →
      find_update_rate (some msgs) reader = Outcome.returned 100) ∧
    (191 ≤ computed_rate (find_update_rate_samples reader 0 0 0 msgs).2 10 ∧
        computed_rate (find_update_rate_samples reader 0 0 0 msgs).2 10 ≤ 209 →
      find_update_rate (some msgs) reader = Outcome.returned 200) ∧
    (381 ≤ computed_rate (find_update_rate_samples reader 0 0 0 msgs).2 10 ∧
        computed_rate (find_update_rate_samples reader 0 0 0 msgs).2 10 ≤ 419 →
      find_update_rate (some msgs) reader = Outcome.returned 400) ∧
    (computed_rate (find_update_rate_samples reader 0 0 0 msgs).2 10 = 45 →
      find_update_rate (some msgs) reader = Outcome.exited 1) := by
  have key : 0 < computed_rate (find_update_rate_samples reader 0 0 0 msgs).2 10 →
      find_update_rate (some msgs) reader =
        rate_bucket (computed_rate (find_update_rate_samples reader 0 0 0 msgs).2 10) := by
    intro hpos
    have hne : mean_interval (find_update_rate_samples reader 0 0 0 msgs).2 10 ≠ 0 := by
      intro h0
      rw [computed_rate_of_mean_zero _ _ h0] at hpos
      omega
    have h := find_update_rate_of_ten reader msgs (by omega) (by rw [hcount]; exact hne)
    rw [hcount] at h
    exact h
  refine ⟨?_, ?_, ?_, ?_, ?_⟩
  · intro h
    rw [key (by omega)]
    exact rate_bucket_50 _ h.1 h.2
  · intro h
    rw [key (by omega)]
    exact rate_bucket_100 _ h.1 h.2
  · intro h
    rw [key (by omega)]
    exact rate_bucket_200 _ h.1 h.2
  · intro h
    rw [key (by omega)]
    exact rate_bucket_400 _ h.1 h.2
  · intro h
    rw [key (by omega), h]
    decide

/-- Eleven IMU2 messages 20000 microseconds apart give ten intervals, a computed
rate of 50 and the return value 50; 22222 microseconds apart they give a computed
rate of 45 and exit code 1. -/
theorem find_update_rate_buckets_witness :
    (find_update_rate_samples ⟨0⟩ 0 0 0 (imu2_log 20000 11)).1 = 10 ∧
      find_update_rate (some (imu2_log 20000 11)) ⟨0⟩ = Outcome.returned 50 ∧
      find_update_rate (some (imu2_log 22222 11)) ⟨0⟩ = Outcome.exited 1 :=
  ⟨by decide, (find_update_rate_buckets ⟨0⟩ (imu2_log 20000 11) (by decide)).1 (by decide),
    (find_update_rate_buckets ⟨0⟩ (imu2_log 22222 11) (by decide)).2.2.2.2 (by decide)⟩

/-- C2. Failure and success of `find_update_rate` on an opened log: when the log
ends before ten IMU2 intervals are collected the process ends with exit code 1;
when ten are collected and the divisor is not zero, a computed rate in none of
the four windows ends the process with exit code 1; and when ten are collected
and the mean interval is at least 1, a computed rate in one of the windows makes
the function return one of 50, 100, 200, 400. -/
theorem find_update_rate_fatal_or_canonical (reader : IMU2Counter) (msgs : List LogRecord) :
    ((find_update_rate_samples reader 0 0 0 msgs).1 < 10 →
      find_update_rate (some msgs) reader = Outcome.exited 1) ∧
    (10 ≤ (find_update_rate_samples reader 0 0 0 msgs).1 →
      mean_interval (find_update_rate_samples reader 0 0 0 msgs).2
        (find_update_rate_samples reader 0 0 0 msgs).1 ≠ 0 →
      ¬ (abs (computed_rate (find_update_rate_samples reader 0 0 0 msgs).2
            (find_update_rate_samples reader 0 0 0 msgs).1 - 50) < 5 ∨
          abs (computed_rate (find_update_rate_samples reader 0 0 0 msgs).2
            (find_update_rate_samples reader 0 0 0 msgs).1 - 100) < 10 ∨
          abs (computed_rate (find_update_rate_samples reader 0 0 0 msgs).2
            (find_update_rate_samples reader 0 0 0 msgs).1 - 200) < 10 ∨
          abs (computed_rate (find_update_rate_samples reader 0 0 0 msgs).2
            (find_update_rate_samples reader 0 0 0 msgs).1 - 400) < 20) →
      find_update_rate (some msgs) reader = Outcome.exited 1) ∧
    (10 ≤ (find_update_rate_samples reader 0 0 0 msgs).1 →
      1 ≤ mean_interval (find_update_rate_samples reader 0 0 0 msgs).2
        (find_update_rate_samples reader 0 0 0 msgs).1 →
      (abs (computed_rate (find_update_rate_samples reader 0 0 0 msgs).2
            (find_update_rate_samples reader 0 0 0 msgs).1 - 50) < 5 ∨
          abs (computed_rate (find_update_rate_samples reader 0 0 0 msgs).2
            (find_update_rate_samples reader 0 0 0 msgs).1 - 100) < 10 ∨
          abs (computed_rate (find_update_rate_samples reader 0 0 0 msgs).2
            (find_update_rate_samples reader 0 0 0 msgs).1 - 200) < 10 ∨
          abs (computed_rate (find_update_rate_samples reader 0 0 0 msgs).2
            (find_update_rate_samples reader 0 0 0 msgs).1 - 400) < 20) →
      find_update_rate (some msgs) reader = Outcome.returned 50 ∨
        find_update_rate (some msgs) reader = Outcome.returned 100 ∨
        find_update_rate (some msgs) reader = Outcome.returned 200 ∨
        find_update_rate (some msgs) reader = Outcome.returned 400) := by
  refine ⟨?_, ?_, ?_⟩
  · intro h
    simp only [find_update_rate]
    rw [if_pos h]
  · intro hcount hmean hwin
    rw [find_update_rate_of_ten reader msgs hcount hmean]
    simp only [not_or] at hwin
    simp [rate_bucket, hwin.1, hwin.2.1, hwin.2.2.1, hwin.2.2.2]
  · intro hcount hmean hwin
    rw [find_update_rate_of_ten reader msgs hcount (by omega)]
    unfold rate_bucket
    split_ifs with h1 h2 h3 h4
    · exact Or.inl rfl
    · exact Or.inr (Or.inl rfl)
    · exact Or.inr (Or.inr (Or.inl rfl))
    · exact Or.inr (Or.inr (Or.inr rfl))
    · exact absurd hwin (by simp [h1, h2, h3, h4])

/-- Three IMU2 messages give two intervals only, and the process ends with exit
code 1; thirty messages 2500 microseconds apart give the return value 400. -/
theorem find_update_rate_fatal_or_canonical_witness :
    find_update_rate (some (imu2_log 20000 3)) ⟨0⟩ = Outcome.exited 1 ∧
    (find_update_rate (some (imu2_log 2500 30)) ⟨0⟩ = Outcome.returned 50 ∨
      find_update_rate (some (imu2_log 2500 30)) ⟨0⟩ = Outcome.returned 100 ∨
      find_update_rate (some (imu2_log 2500 30)) ⟨0⟩ = Outcome.returned 200 ∨
      find_update_rate (some (imu2_log 2500 30)) ⟨0⟩ = Outcome.returned 400) :=
  ⟨(find_update_rate_fatal_or_canonical ⟨0⟩ (imu2_log 20000 3)).1 (by decide),
    (find_update_rate_fatal_or_canonical ⟨0⟩ (imu2_log 2500 30)).2.2 (by decide) (by decide)
      (by decide)⟩

/-! ## The dispatcher: one message -/

@[simp] theorem streq_iff (x y : String) : streq x y = true ↔ x = y := by
  simp [streq]

@[simp] theorem streq_false_iff (x y : String) : streq x y = false ↔ x ≠ y := by
  simp [streq]

theorem set_user_parameters_loop_events (sp : String → Nat → Bool) (ps : List UserParameter) :
    ∀ e ∈ (set_user_parameters_loop sp ps).1,
      (∃ n v, e = Event.set_parameter n v) ∨ (∃ n v, e = Event.failed_to_set_parameter n v) := by
  induction ps with
  | nil => simp [set_user_parameters_loop]
  | cons p rest ih =>
    intro e he
    simp only [set_user_parameters_loop] at he
    split_ifs at he with hp
    · simp only [List.mem_cons] at he
      rcases he with rfl | he
      · exact Or.inl ⟨_, _, rfl⟩
      · exact ih e he
    · simp only [List.mem_cons, List.mem_singleton, List.not_mem_nil, or_false] at he
      rcases he with rfl | rfl
      · exact Or.inl ⟨_, _, rfl⟩
      · exact Or.inr ⟨_, _, rfl⟩

theorem set_user_parameters_loop_accepted (sp : String → Nat → Bool) (ps : List UserParameter)
    (h : ∀ p ∈ ps, sp p.name p.value = true) :
    set_user_parameters_loop sp ps =
      (ps.map (fun p => Event.set_parameter p.name p.value), none) := by
  induction ps with
  | nil => rfl
  | cons p rest ih =>
    have hp : sp p.name p.value = true := h p (List.mem_cons_self _ _)
    have hr := ih (fun q hq => h q (List.mem_cons_of_mem _ hq))
    simp [set_user_parameters_loop, hp, hr]

theorem set_user_parameters_loop_exit (sp : String → Nat → Bool) (ps : List UserParameter) :
    ((set_user_parameters_loop sp ps).2 = none ∧ ∀ p ∈ ps, sp p.name p.value = true) ∨
    ((set_user_parameters_loop sp ps).2 = some 1 ∧ ∃ p ∈ ps, sp p.name p.value = false) := by
  induction ps with
  | nil => left; simp [set_user_parameters_loop]
  | cons p rest ih =>
    by_cases hp : sp p.name p.value = true
    · rcases ih with ⟨h1, h2⟩ | ⟨h1, q, hq, hq2⟩
      · left
        refine ⟨by simp [set_user_parameters_loop, hp, h1], ?_⟩
        intro q hq
        rcases List.mem_cons.1 hq with rfl | hq
        · exact hp
        · exact h2 q hq
      · right
        exact ⟨by simp [set_user_parameters_loop, hp, h1], q, List.mem_cons_of_mem _ hq, hq2⟩
    · right
      refine ⟨by simp [set_user_parameters_loop, hp], p, List.mem_cons_self _ _, ?_⟩
      simpa using hp

theorem stage_parameters_state (sp : String → Nat → Bool) (s : Replay) (t : String) :
    (s.stage_parameters sp t).1 =
      { s with done_parameters := s.done_parameters || (!streq t "FMT" && !streq t "PARM") } := by
  cases s with
  | mk dp db dh arm ah i2 it it2 fr ui ps sa =>
    cases dp <;> cases h1 : streq t "FMT" <;> cases h2 : streq t "PARM" <;>
      simp [Replay.stage_parameters, h1, h2]

theorem stage_parameters_closed (sp : String → Nat → Bool) (s : Replay) (t : String)
    (h : s.done_parameters = true ∨ t = "FMT" ∨ t = "PARM") :
    s.stage_parameters sp t = (s, [], none) := by
  rcases h with h | h | h <;> simp [Replay.stage_parameters, h]

theorem stage_parameters_open (sp : String → Nat → Bool) (s : Replay) (t : String)
    (h : s.done_parameters = false) (h1 : t ≠ "FMT") (h2 : t ≠ "PARM") :
    s.stage_parameters sp t =
      ({ s with done_parameters := true }, (set_user_parameters_loop sp s.user_parameters).1,
        (set_user_parameters_loop sp s.user_parameters).2) := by
  simp [Replay.stage_parameters, Replay.set_user_parameters, h, h1, h2]

theorem side_updates_state (s : Replay) (r : LogRecord) :
    (s.side_updates r).1 =
      { s with done_baro_init := s.done_baro_init || streq r.type "BARO" } := by
  cases s with
  | mk dp db dh arm ah i2 it it2 fr ui ps sa =>
    unfold Replay.side_updates
    by_cases h1 : r.type = "GPS"
    · simp [h1]
    · by_cases h2 : r.type = "MAG"
      · simp [h2]
      · by_cases h3 : r.type = "ARSP"
        · simp [h3]
        · by_cases h4 : r.type = "BARO"
          · cases db <;> simp [h4]
          · simp [h1, h2, h3, h4]

theorem side_updates_events (s : Replay) (r : LogRecord) :
    ∀ e ∈ (s.side_updates r).2,
      e = Event.gps_update ∨ e = Event.estimate_wind ∨ e = Event.compass_read ∨
        e = Event.set_airspeed ∨ e = Event.baro_update ∨ e = Event.baro_update_calibration := by
  intro e he
  unfold Replay.side_updates at he
  split_ifs at he <;> simp at he <;> aesop

theorem frame_sync_state (s : Replay) (t : String) :
    (s.frame_sync t).1 = { s with have_fram := s.have_fram || streq t "FRAM" } := by
  cases s with
  | mk dp db dh arm ah i2 it it2 fr ui ps sa =>
    cases fr <;> cases h : streq t "FRAM" <;> simp [Replay.frame_sync, h]

theorem frame_sync_events (s : Replay) (t : String) :
    ∀ e ∈ (s.frame_sync t).2, e = Event.have_fram_framing := by
  intro e he
  unfold Replay.frame_sync at he
  split_ifs at he <;> simp_all

theorem update_estimator_state (s : Replay) (r : LogRecord) :
    (s.update_estimator r).1 = { s with ahrs_healthy := r.ahrs_healthy } := by
  cases s with
  | mk dp db dh arm ah i2 it it2 fr ui ps sa =>
    cases ah <;> cases h : r.ahrs_healthy <;> simp [Replay.update_estimator, h]

theorem update_estimator_events (s : Replay) (r : LogRecord) :
    Event.ahrs_update ∈ (s.update_estimator r).2 ∧
    ∀ e ∈ (s.update_estimator r).2,
      e = Event.ahrs_update ∨ e = Event.inertial_nav_update ∨ e = Event.log_write ∨
        e = Event.ahrs_health r.ahrs_healthy r.millis := by
  unfold Replay.update_estimator
  split_ifs <;> simp

theorem stage_parameters_exit (sp : String → Nat → Bool) (s : Replay) (t : String) :
    ((s.stage_parameters sp t).2.2 = none ∧
      (s.done_parameters = true ∨ t = "FMT" ∨ t = "PARM" ∨
        ∀ p ∈ s.user_parameters, sp p.name p.value = true)) ∨
    ((s.stage_parameters sp t).2.2 = some 1 ∧
      s.done_parameters = false ∧ t ≠ "FMT" ∧ t ≠ "PARM" ∧
        ∃ p ∈ s.user_parameters, sp p.name p.value = false) := by
  by_cases h : s.done_parameters = true ∨ t = "FMT" ∨ t = "PARM"
  · left
    rw [stage_parameters_closed sp s t h]
    exact ⟨rfl, by tauto⟩
  · simp only [not_or, Bool.not_eq_true] at h
    rw [stage_parameters_open sp s t h.1 h.2.1 h.2.2]
    rcases set_user_parameters_loop_exit sp s.user_parameters with ⟨h1, h2⟩ | ⟨h1, h2⟩
    · left
      exact ⟨h1, Or.inr (Or.inr (Or.inr h2))⟩
    · right
      exact ⟨h1, h.1, h.2.1, h.2.2, h2⟩

/-- A call of `read_sensors` either returns or ends the process with exit code 1;
it returns exactly when the overrides are already done, the message is `FMT` or
`PARM`, or every override is accepted. -/
theorem read_sensors_exit (sp : String → Nat → Bool) (s : Replay) (r : LogRecord) :
    ((s.read_sensors sp r).exit = none ∧
      (s.done_parameters = true ∨ r.type = "FMT" ∨ r.type = "PARM" ∨
        ∀ p ∈ s.user_parameters, sp p.name p.value = true)) ∨
    ((s.read_sensors sp r).exit = some 1 ∧
      s.done_parameters = false ∧ r.type ≠ "FMT" ∧ r.type ≠ "PARM" ∧
        ∃ p ∈ s.user_parameters, sp p.name p.value = false) := by
  rcases stage_parameters_exit sp s r.type with ⟨h1, h2⟩ | ⟨h1, h2⟩
  · left
    refine ⟨?_, h2⟩
    unfold Replay.read_sensors
    simp only [h1]
    split_ifs <;> rfl
  · right
    refine ⟨?_, h2⟩
    unfold Replay.read_sensors
    simp only [h1]

theorem read_sensors_returns (sp : String → Nat → Bool) (s : Replay) (r : LogRecord)
    (h : s.done_parameters = true ∨ r.type = "FMT" ∨ r.type = "PARM" ∨
      ∀ p ∈ s.user_parameters, sp p.name p.value = true) :
    (s.read_sensors sp r).exit = none := by
  rcases read_sensors_exit sp s r with ⟨h1, _⟩ | ⟨_, h2, h3, h4, p, hp, hp2⟩
  · exact h1
  · rcases h with h | h | h | h
    · simp [h] at h2
    · exact absurd h h3
    · exact absurd h h4
    · simp [h p hp] at hp2

/-- The flags a returning call of `read_sensors` leaves behind. -/
theorem read_sensors_flags (sp : String → Nat → Bool) (s : Replay) (r : LogRecord)
    (h : (s.read_sensors sp r).exit = none) :
    (s.read_sensors sp r).state.have_imu2 = (streq r.type "IMU2" || s.have_imu2) ∧
    (s.read_sensors sp r).state.have_imt = ((s.use_imt && streq r.type "IMT") || s.have_imt) ∧
    (s.read_sensors sp r).state.have_imt2 = ((s.use_imt && streq r.type "IMT2") || s.have_imt2) ∧
    (s.read_sensors sp r).state.have_fram = (s.have_fram || streq r.type "FRAM") ∧
    (s.read_sensors sp r).state.done_baro_init = (s.done_baro_init || streq r.type "BARO") := by
  rcases stage_parameters_exit sp s r.type with ⟨h1, _⟩ | ⟨h1, _⟩
  · unfold Replay.read_sensors
    simp only [h1]
    split_ifs <;>
      simp [update_estimator_state, frame_sync_state, side_updates_state,
        stage_parameters_state, Replay.note_formats, streq]
  · unfold Replay.read_sensors at h
    simp [h1] at h

/-- The members `read_sensors` never writes. -/
theorem read_sensors_frame (sp : String → Nat → Bool) (s : Replay) (r : LogRecord) :
    (s.read_sensors sp r).state.use_imt = s.use_imt ∧
    (s.read_sensors sp r).state.user_parameters = s.user_parameters ∧
    (s.read_sensors sp r).state.arm_time_ms = s.arm_time_ms ∧
    (s.read_sensors sp r).state.soft_armed = s.soft_armed ∧
    (s.read_sensors sp r).state.done_home_init = s.done_home_init ∧
    (s.read_sensors sp r).state.done_parameters =
      (s.done_parameters || (!streq r.type "FMT" && !streq r.type "PARM")) := by
  rcases stage_parameters_exit sp s r.type with ⟨h1, _⟩ | ⟨h1, _⟩
  · unfold Replay.read_sensors
    simp only [h1]
    split_ifs <;>
      simp [update_estimator_state, frame_sync_state, side_updates_state,
        stage_parameters_state, Replay.note_formats]
  · unfold Replay.read_sensors
    simp only [h1]
    simp [stage_parameters_state]

/-- The flags never go from set to clear in a call of `read_sensors`, whether it
returns or not. -/
theorem read_sensors_flags_mono (sp : String → Nat → Bool) (s : Replay) (r : LogRecord) :
    (s.have_imu2 = true → (s.read_sensors sp r).state.have_imu2 = true) ∧
    (s.have_imt = true → (s.read_sensors sp r).state.have_imt = true) ∧
    (s.have_imt2 = true → (s.read_sensors sp r).state.have_imt2 = true) ∧
    (s.have_fram = true → (s.read_sensors sp r).state.have_fram = true) := by
  rcases read_sensors_exit sp s r with ⟨h1, _⟩ | ⟨_, _⟩
  · obtain ⟨f1, f2, f3, f4, _⟩ := read_sensors_flags sp s r h1
    rw [f1, f2, f3, f4]
    refine ⟨?_, ?_, ?_, ?_⟩ <;> intro h <;> simp [h]
  · rcases stage_parameters_exit sp s r.type with ⟨h1, _⟩ | ⟨h1, _⟩
    · unfold Replay.read_sensors
      simp only [h1]
      split_ifs <;>
        simp +contextual [update_estimator_state, frame_sync_state, side_updates_state,
          stage_parameters_state, Replay.note_formats]
    · unfold Replay.read_sensors
      simp only [h1]
      simp [stage_parameters_state]

/-- The value of `run_ahrs` depends on the four format flags only. -/
theorem run_ahrs_congr (s1 s2 : Replay) (t : String)
    (h1 : s1.have_imu2 = s2.have_imu2) (h2 : s1.have_imt = s2.have_imt)
    (h3 : s1.have_imt2 = s2.have_imt2) (h4 : s1.have_fram = s2.have_fram) :
    s1.run_ahrs t = s2.run_ahrs t := by
  simp [Replay.run_ahrs, h1, h2, h3, h4]

/-- A returning call of `read_sensors` calls `ahrs.update()` exactly when
`run_ahrs` holds for the flags it leaves behind. -/
theorem read_sensors_ahrs_update (sp : String → Nat → Bool) (s : Replay) (r : LogRecord)
    (h : (s.read_sensors sp r).exit = none) :
    Event.ahrs_update ∈ (s.read_sensors sp r).events ↔
      (s.read_sensors sp r).state.run_ahrs r.type = true := by
  rcases stage_parameters_exit sp s r.type with ⟨h1, _⟩ | ⟨h1, _⟩
  · have hst : ∀ e ∈ (s.stage_parameters sp r.type).2.1, e ≠ Event.ahrs_update := by
      intro e he
      unfold Replay.stage_parameters at he
      split_ifs at he
      · rcases set_user_parameters_loop_events sp _ e he with ⟨n, v, rfl⟩ | ⟨n, v, rfl⟩ <;> simp
      · simp at he
    have hside := side_updates_events ((s.stage_parameters sp r.type).1.note_formats r.type) r
    have hfr := frame_sync_events
      (((s.stage_parameters sp r.type).1.note_formats r.type).side_updates r).1 r.type
    have hpre : Event.ahrs_update ∉ (s.stage_parameters sp r.type).2.1 ++
        (((s.stage_parameters sp r.type).1.note_formats r.type).side_updates r).2 ++
        ((((s.stage_parameters sp r.type).1.note_formats r.type).side_updates r).1.frame_sync
          r.type).2 := by
      simp only [List.mem_append, not_or]
      refine ⟨⟨fun hm => hst _ hm rfl, fun hm => ?_⟩, fun hm => ?_⟩
      · have := hside _ hm
        simp at this
      · have := hfr _ hm
        simp at this
    unfold Replay.read_sensors
    simp only [h1]
    split_ifs with hrun
    · simp only [List.mem_append] at hpre ⊢
      constructor
      · intro _
        rw [← hrun]
        apply run_ahrs_congr <;> simp [update_estimator_state]
      · intro _
        exact Or.inr (update_estimator_events _ r).1
    · constructor
      · intro hm
        exact absurd hm hpre
      · intro hm
        exact absurd hm hrun
  · unfold Replay.read_sensors at h
    simp [h1] at h

/-- The decision `run_ahrs` spelled out. -/
theorem run_ahrs_iff (s : Replay) (t : String) :
    s.run_ahrs t = true ↔
      t = "FRAM" ∨
      (s.have_imt = true ∧
        ((t = "IMT" ∧ s.have_imt2 = false) ∨ (t = "IMT2" ∧ s.have_imt2 = true))) ∨
      (s.have_fram = false ∧ s.have_imt = false ∧
        ((t = "IMU" ∧ s.have_imu2 = false) ∨ (t = "IMU2" ∧ s.have_imu2 = true))) := by
  unfold Replay.run_ahrs
  cases s.have_imt <;> cases s.have_fram <;> cases s.have_imt2 <;> cases s.have_imu2 <;>
    simp <;> tauto

/-- A call of `read_sensors` that ends the process takes no action besides the
calls of `set_parameter` and the failure message. -/
theorem read_sensors_events_of_exit (sp : String → Nat → Bool) (s : Replay) (r : LogRecord)
    (h : (s.read_sensors sp r).exit ≠ none) :
    (s.read_sensors sp r).events = (set_user_parameters_loop sp s.user_parameters).1 := by
  rcases stage_parameters_exit sp s r.type with ⟨h1, _⟩ | ⟨h1, h2, h3, h4, _⟩
  · exfalso
    apply h
    unfold Replay.read_sensors
    simp only [h1]
    split_ifs <;> rfl
  · unfold Replay.read_sensors
    simp only [h1]
    rw [stage_parameters_open sp s r.type h2 h3 h4]

/-- An estimator update happens only in a call that returns, and then exactly when
`run_ahrs` holds. -/
theorem read_sensors_trigger_iff (sp : String → Nat → Bool) (s : Replay) (r : LogRecord) :
    Event.ahrs_update ∈ (s.read_sensors sp r).events ↔
      (s.read_sensors sp r).exit = none ∧ (s.read_sensors sp r).state.run_ahrs r.type = true := by
  by_cases h : (s.read_sensors sp r).exit = none
  · rw [read_sensors_ahrs_update sp s r h]
    simp [h]
  · constructor
    · intro hm
      rw [read_sensors_events_of_exit sp s r h] at hm
      rcases set_user_parameters_loop_events sp _ _ hm with ⟨n, v, hv⟩ | ⟨n, v, hv⟩ <;>
        simp at hv
    · intro hm
      exact absurd hm.1 h

/-- An `FMT` or `PARM` message leaves the members alone and takes no action. -/
theorem read_sensors_config (sp : String → Nat → Bool) (s : Replay) (r : LogRecord)
    (h : r.type = "FMT" ∨ r.type = "PARM") :
    s.read_sensors sp r = { state := s, events := [], exit := none } := by
  have hst := stage_parameters_closed sp s r.type (Or.inr h)
  cases s with
  | mk dp db dh arm ah i2 it it2 fr ui ps sa =>
    unfold Replay.read_sensors
    rw [hst]
    rcases h with h | h <;>
      simp [h, Replay.run_ahrs, Replay.frame_sync, Replay.side_updates, Replay.note_formats]

/-! ## The dispatcher: a sequence of messages -/

theorem read_sensors_seq_cons_ok (sp : String → Nat → Bool) (s : Replay) (r : LogRecord)
    (rest : List LogRecord) (h : (s.read_sensors sp r).exit = none) :
    Replay.read_sensors_seq sp s (r :: rest) =
      { state := (Replay.read_sensors_seq sp (s.read_sensors sp r).state rest).state,
        trace := (s.read_sensors sp r).events ::
          (Replay.read_sensors_seq sp (s.read_sensors sp r).state rest).trace,
        exit := (Replay.read_sensors_seq sp (s.read_sensors sp r).state rest).exit } := by
  simp only [Replay.read_sensors_seq, h]

theorem read_sensors_seq_cons_exit (sp : String → Nat → Bool) (s : Replay) (r : LogRecord)
    (rest : List LogRecord) (h : (s.read_sensors sp r).exit ≠ none) :
    Replay.read_sensors_seq sp s (r :: rest) =
      { state := (s.read_sensors sp r).state, trace := [(s.read_sensors sp r).events],
        exit := (s.read_sensors sp r).exit } := by
  cases hx : (s.read_sensors sp r).exit with
  | none => exact absurd hx h
  | some code => simp only [Replay.read_sensors_seq, hx]

/-- The entry of the trace for the message at position `j` is what `read_sensors`
does on that message from the members left by the messages before it, all of
which returned. -/
theorem read_sensors_seq_trace (sp : String → Nat → Bool) (rs : List LogRecord) :
    ∀ (s : Replay) (j : Nat) (ev : List Event),
      (Replay.read_sensors_seq sp s rs).trace[j]? = some ev →
      ∃ rj, rs[j]? = some rj ∧
        (Replay.read_sensors_seq sp s (rs.take j)).exit = none ∧
        ev = ((Replay.read_sensors_seq sp s (rs.take j)).state.read_sensors sp rj).events := by
  induction rs with
  | nil =>
    intro s j ev h
    simp [Replay.read_sensors_seq] at h
  | cons r rest ih =>
    intro s j ev h
    cases j with
    | zero =>
      refine ⟨r, by simp, rfl, ?_⟩
      by_cases hx : (s.read_sensors sp r).exit = none
      · rw [read_sensors_seq_cons_ok sp s r rest hx] at h
        simpa [Replay.read_sensors_seq] using h.symm
      · rw [read_sensors_seq_cons_exit sp s r rest hx] at h
        simpa [Replay.read_sensors_seq] using h.symm
    | succ j =>
      by_cases hx : (s.read_sensors sp r).exit = none
      · rw [read_sensors_seq_cons_ok sp s r rest hx] at h
        simp only [List.getElem?_cons_succ] at h
        obtain ⟨rj, h1, h2, h3⟩ := ih _ j ev h
        refine ⟨rj, by simpa using h1, ?_, ?_⟩
        · rw [List.take_succ_cons, read_sensors_seq_cons_ok sp s r _ hx]
          exact h2
        · rw [List.take_succ_cons, read_sensors_seq_cons_ok sp s r _ hx]
          exact h3
      · rw [read_sensors_seq_cons_exit sp s r rest hx] at h
        simp at h

/-- The flags after a sequence of messages on all of which `read_sensors` returned. -/
theorem read_sensors_seq_flags (sp : String → Nat → Bool) (rs : List LogRecord) :
    ∀ (s : Replay), (Replay.read_sensors_seq sp s rs).exit = none →
      (Replay.read_sensors_seq sp s rs).state.have_imu2 =
        (s.have_imu2 || rs.any (fun r => streq r.type "IMU2")) ∧
      (Replay.read_sensors_seq sp s rs).state.have_imt =
        (s.have_imt || (s.use_imt && rs.any (fun r => streq r.type "IMT"))) ∧
      (Replay.read_sensors_seq sp s rs).state.have_imt2 =
        (s.have_imt2 || (s.use_imt && rs.any (fun r => streq r.type "IMT2"))) ∧
      (Replay.read_sensors_seq sp s rs).state.have_fram =
        (s.have_fram || rs.any (fun r => streq r.type "FRAM")) ∧
      (Replay.read_sensors_seq sp s rs).state.done_baro_init =
        (s.done_baro_init || rs.any (fun r => streq r.type "BARO")) := by
  induction rs with
  | nil =>
    intro s _
    simp [Replay.read_sensors_seq]
  | cons r rest ih =>
    intro s h
    by_cases hx : (s.read_sensors sp r).exit = none
    · rw [read_sensors_seq_cons_ok sp s r rest hx] at h ⊢
      obtain ⟨g1, g2, g3, g4, g5⟩ := ih _ h
      obtain ⟨f1, f2, f3, f4, f5⟩ := read_sensors_flags sp s r hx
      obtain ⟨u, _⟩ := read_sensors_frame sp s r
      simp only [g1, g2, g3, g4, g5, f1, f2, f3, f4, f5, u, List.any_cons]
      cases s.have_imu2 <;> cases s.have_imt <;> cases s.have_imt2 <;> cases s.have_fram <;>
        cases s.done_baro_init <;> cases s.use_imt <;> simp
    · rw [read_sensors_seq_cons_exit sp s r rest hx] at h
      exact absurd h hx

/-- The flags never go from set to clear over a sequence of messages. -/
theorem read_sensors_seq_flags_mono (sp : String → Nat → Bool) (rs : List LogRecord) :
    ∀ (s : Replay),
      (s.have_imu2 = true → (Replay.read_sensors_seq sp s rs).state.have_imu2 = true) ∧
      (s.have_imt = true → (Replay.read_sensors_seq sp s rs).state.have_imt = true) ∧
      (s.have_imt2 = true → (Replay.read_sensors_seq sp s rs).state.have_imt2 = true) ∧
      (s.have_fram = true → (Replay.read_sensors_seq sp s rs).state.have_fram = true) := by
  induction rs with
  | nil =>
    intro s
    simp [Replay.read_sensors_seq]
  | cons r rest ih =>
    intro s
    obtain ⟨m1, m2, m3, m4⟩ := read_sensors_flags_mono sp s r
    by_cases hx : (s.read_sensors sp r).exit = none
    · rw [read_sensors_seq_cons_ok sp s r rest hx]
      obtain ⟨g1, g2, g3, g4⟩ := ih (s.read_sensors sp r).state
      exact ⟨fun h => g1 (m1 h), fun h => g2 (m2 h), fun h => g3 (m3 h), fun h => g4 (m4 h)⟩
    · rw [read_sensors_seq_cons_exit sp s r rest hx]
      exact ⟨m1, m2, m3, m4⟩

/-- With the overrides done, or all of them accepted, `read_sensors` returns on
every message of a sequence. -/
theorem read_sensors_seq_returns (sp : String → Nat → Bool) (rs : List LogRecord) :
    ∀ (s : Replay),
      (s.done_parameters = true ∨ ∀ p ∈ s.user_parameters, sp p.name p.value = true) →
      (Replay.read_sensors_seq sp s rs).exit = none ∧
        (Replay.read_sensors_seq sp s rs).trace.length = rs.length := by
  induction rs with
  | nil =>
    intro s _
    simp [Replay.read_sensors_seq]
  | cons r rest ih =>
    intro s h
    have hx : (s.read_sensors sp r).exit = none :=
      read_sensors_returns sp s r (by tauto)
    rw [read_sensors_seq_cons_ok sp s r rest hx]
    obtain ⟨_, u, _, _, _, d⟩ := read_sensors_frame sp s r
    have h2 := ih (s.read_sensors sp r).state (by
      rcases h with h | h
      · left
        rw [d, h]
        rfl
      · right
        rw [u]
        exact h)
    exact ⟨h2.1, by simp [h2.2]⟩

/-- The members a sequence of calls of `read_sensors` never writes, and
`done_parameters`, which it never clears. -/
theorem read_sensors_seq_frame (sp : String → Nat → Bool) (rs : List LogRecord) :
    ∀ (s : Replay),
      (Replay.read_sensors_seq sp s rs).state.use_imt = s.use_imt ∧
      (Replay.read_sensors_seq sp s rs).state.user_parameters = s.user_parameters ∧
      (s.done_parameters = true →
        (Replay.read_sensors_seq sp s rs).state.done_parameters = true) := by
  induction rs with
  | nil =>
    intro s
    simp [Replay.read_sensors_seq]
  | cons r rest ih =>
    intro s
    obtain ⟨u, p, _, _, _, d⟩ := read_sensors_frame sp s r
    have hd : s.done_parameters = true → (s.read_sensors sp r).state.done_parameters = true := by
      intro h
      rw [d, h]
      rfl
    by_cases hx : (s.read_sensors sp r).exit = none
    · rw [read_sensors_seq_cons_ok sp s r rest hx]
      obtain ⟨g1, g2, g3⟩ := ih (s.read_sensors sp r).state
      exact ⟨by rw [g1, u], by rw [g2, p], fun h => g3 (hd h)⟩
    · rw [read_sensors_seq_cons_exit sp s r rest hx]
      exact ⟨u, p, hd⟩

/-- No message before position `j` satisfies `p` exactly when `any p` fails on the
first `j` messages. -/
theorem any_take_eq_false_iff (p : LogRecord → Bool) (rs : List LogRecord) (j : Nat) :
    (rs.take j).any p = false ↔ ∀ i ri, i < j → rs[i]? = some ri → p ri = false := by
  rw [List.any_eq_false]
  constructor
  · intro h i ri hi hri
    have hm : ri ∈ rs.take j := by
      apply List.getElem?_mem (n := i)
      rw [List.getElem?_take_of_lt hi]
      exact hri
    simpa using h ri hm
  · intro h x hx
    obtain ⟨n, hn⟩ := List.mem_iff_getElem?.1 hx
    by_cases hnj : n < j
    · rw [List.getElem?_take_of_lt hnj] at hn
      simpa using h n x hnj hn
    · rw [List.getElem?_take_eq_none (by omega)] at hn
      simp at hn

/-- With the overrides done or all accepted, every message of a sequence has its
entry in the trace, and the members before it still satisfy that condition. -/
theorem read_sensors_seq_entry (sp : String → Nat → Bool) (s : Replay) (rs : List LogRecord)
    (hok : s.done_parameters = true ∨ ∀ p ∈ s.user_parameters, sp p.name p.value = true)
    (j : Nat) (rj : LogRecord) (hj : rs[j]? = some rj) :
    (Replay.read_sensors_seq sp s (rs.take j)).exit = none ∧
    ((Replay.read_sensors_seq sp s (rs.take j)).state.done_parameters = true ∨
      ∀ p ∈ (Replay.read_sensors_seq sp s (rs.take j)).state.user_parameters,
        sp p.name p.value = true) ∧
    (Replay.read_sensors_seq sp s rs).trace[j]? =
      some ((Replay.read_sensors_seq sp s (rs.take j)).state.read_sensors sp rj).events := by
  obtain ⟨hlt, _⟩ := List.getElem?_eq_some.1 hj
  obtain ⟨_, hlen⟩ := read_sensors_seq_returns sp rs s hok
  have hex : ∃ ev, (Replay.read_sensors_seq sp s rs).trace[j]? = some ev := by
    have : j < (Replay.read_sensors_seq sp s rs).trace.length := by omega
    exact ⟨_, List.getElem?_eq_getElem this⟩
  obtain ⟨ev, hev⟩ := hex
  obtain ⟨rj2, h1, h2, h3⟩ := read_sensors_seq_trace sp rs s j ev hev
  have hr : rj2 = rj := by
    rw [hj] at h1
    exact (Option.some.inj h1).symm
  subst hr
  obtain ⟨_, p, d⟩ := read_sensors_seq_frame sp (rs.take j) s
  refine ⟨h2, ?_, by rw [hev, h3]⟩
  rcases hok with h | h
  · exact Or.inl (d h)
  · right
    rw [p]
    exact h

/-- C3. Framed and legacy formats exclude each other in `read_sensors`: every
`FRAM` message that `read_sensors` gets to handle (the overrides are done, or all
of them are accepted, so the call returns) sets `have_fram` and triggers an
estimator update, within a sequence as well; and for every message sequence, no
`IMU` or `IMU2` message that comes after a `FRAM` message triggers an estimator
update. -/
theorem fram_excludes_legacy (sp : String → Nat → Bool) :
    (∀ (s : Replay) (r : LogRecord), r.type = "FRAM" →
      (s.done_parameters = true ∨ ∀ p ∈ s.user_parameters, sp p.name p.value = true) →
      (s.read_sensors sp r).exit = none ∧ (s.read_sensors sp r).state.have_fram = true ∧
        Event.ahrs_update ∈ (s.read_sensors sp r).events) ∧
    (∀ (s : Replay) (rs : List LogRecord) (j : Nat) (rj : LogRecord),
      (s.done_parameters = true ∨ ∀ p ∈ s.user_parameters, sp p.name p.value = true) →
      rs[j]? = some rj → rj.type = "FRAM" →
      ∃ ev, (Replay.read_sensors_seq sp s rs).trace[j]? = some ev ∧ Event.ahrs_update ∈ ev) ∧
    (∀ (s : Replay) (rs : List LogRecord) (i j : Nat) (ri rj : LogRecord) (ev : List Event),
      rs[i]? = some ri → ri.type = "FRAM" → i < j → rs[j]? = some rj →
      (rj.type = "IMU" ∨ rj.type = "IMU2") →
      (Replay.read_sensors_seq sp s rs).trace[j]? = some ev → Event.ahrs_update ∉ ev) := by
  have step : ∀ (s : Replay) (r : LogRecord), r.type = "FRAM" →
      (s.done_parameters = true ∨ ∀ p ∈ s.user_parameters, sp p.name p.value = true) →
      (s.read_sensors sp r).exit = none ∧ (s.read_sensors sp r).state.have_fram = true ∧
        Event.ahrs_update ∈ (s.read_sensors sp r).events := by
    intro s r hr hok
    have hx : (s.read_sensors sp r).exit = none := read_sensors_returns sp s r (by tauto)
    obtain ⟨_, _, _, f4, _⟩ := read_sensors_flags sp s r hx
    refine ⟨hx, by simp [f4, hr], ?_⟩
    rw [read_sensors_trigger_iff]
    exact ⟨hx, (run_ahrs_iff _ _).2 (Or.inl hr)⟩
  refine ⟨step, ?_, ?_⟩
  · intro s rs j rj hok hj hr
    obtain ⟨_, hok2, htr⟩ := read_sensors_seq_entry sp s rs hok j rj hj
    exact ⟨_, htr, (step _ rj hr hok2).2.2⟩
  · intro s rs i j ri rj ev hi hri hij hj hrj hev hmem
    obtain ⟨rj2, h1, h2, h3⟩ := read_sensors_seq_trace sp rs s j ev hev
    have hr : rj2 = rj := by
      rw [hj] at h1
      exact (Option.some.inj h1).symm
    subst hr
    obtain ⟨_, _, _, g4, _⟩ := read_sensors_seq_flags sp (rs.take j) s h2
    have hfram : (Replay.read_sensors_seq sp s (rs.take j)).state.have_fram = true := by
      rw [g4]
      have hm : ri ∈ rs.take j := by
        apply List.getElem?_mem (n := i)
        rw [List.getElem?_take_of_lt hij]
        exact hi
      have : (rs.take j).any (fun r => streq r.type "FRAM") = true :=
        List.any_eq_true.2 ⟨ri, hm, by simp [hri]⟩
      simp [this]
    rw [h3, read_sensors_trigger_iff] at hmem
    obtain ⟨_, hrun⟩ := hmem
    have hpost := (read_sensors_flags_mono sp _ rj2).2.2.2 hfram
    rw [run_ahrs_iff] at hrun
    rcases hrj with hrj | hrj <;> simp [hrj, hpost] at hrun

/-- The run over a `FRAM` message followed by an `IMU` message, with no overrides:
the `FRAM` message triggers and the `IMU` message does not. -/
theorem fram_excludes_legacy_witness :
    Event.ahrs_update ∈
        ((Replay.init true (-1) []).read_sensors (fun _ _ => true) { type := "FRAM" }).events ∧
      (Replay.read_sensors_seq (fun _ _ => true) (Replay.init true (-1) [])
        [{ type := "FRAM" }, { type := "IMU" }]).trace[1]? = some [] ∧
      Event.ahrs_update ∉ ([] : List Event) :=
  ⟨((fram_excludes_legacy (fun _ _ => true)).1 (Replay.init true (-1) []) { type := "FRAM" }
      rfl (Or.inr (by simp [Replay.init]))).2.2,
    by decide,
    (fram_excludes_legacy (fun _ _ => true)).2.2 (Replay.init true (-1) [])
      [{ type := "FRAM" }, { type := "IMU" }] 0 1 { type := "FRAM" } { type := "IMU" } []
      rfl rfl (by decide) rfl (Or.inl rfl) (by decide)⟩

/-- The legacy rule for one message: when the call returns with neither `have_fram`
nor `have_imt` set, the estimator update is triggered exactly by an `IMU2`
message, or by an `IMU` message while `have_imu2` is clear. -/
theorem read_sensors_legacy_rule (sp : String → Nat → Bool) (s : Replay) (r : LogRecord)
    (hx : (s.read_sensors sp r).exit = none)
    (hfram : (s.read_sensors sp r).state.have_fram = false)
    (himt : (s.read_sensors sp r).state.have_imt = false) :
    Event.ahrs_update ∈ (s.read_sensors sp r).events ↔
      r.type = "IMU2" ∨ (r.type = "IMU" ∧ s.have_imu2 = false) := by
  obtain ⟨f1, _, _, f4, _⟩ := read_sensors_flags sp s r hx
  have hnf : r.type ≠ "FRAM" := by
    intro h
    rw [f4] at hfram
    simp [h] at hfram
  rw [read_sensors_trigger_iff, run_ahrs_iff, hfram, himt, f1]
  constructor
  · rintro ⟨_, h | h | ⟨_, _, h | h⟩⟩
    · exact absurd h hnf
    · simp at h
    · right
      refine ⟨h.1, ?_⟩
      have := h.2
      simp only [Bool.or_eq_false_iff] at this
      exact this.2
    · exact Or.inl h.1
  · rintro (h | ⟨h1, h2⟩)
    · exact ⟨hx, Or.inr (Or.inr ⟨rfl, rfl, Or.inr ⟨h, by simp [h]⟩⟩)⟩
    · exact ⟨hx, Or.inr (Or.inr ⟨rfl, rfl, Or.inl ⟨h1, by simp [h1, h2]⟩⟩)⟩

/-- C4. The legacy trigger rule of `read_sensors`.  For one message: when the call
returns and neither `have_fram` nor `have_imt` is set at the trigger decision, an
estimator update is triggered if and only if the message is `IMU2`, or it is
`IMU` and `have_imu2` was clear.  For a sequence started with the three flags
clear: a message up to which no `FRAM` message (and, with `use_imt`, no `IMT`
message) has come triggers if and only if it is `IMU2`, or it is `IMU` and no
`IMU2` message came before it.  In particular, in a sequence without `IMU2`,
`IMT`, `IMT2` and `FRAM` messages the triggering messages are exactly the `IMU`
messages. -/
theorem legacy_trigger_rule (sp : String → Nat → Bool) :
    (∀ (s : Replay) (r : LogRecord),
      (s.done_parameters = true ∨ ∀ p ∈ s.user_parameters, sp p.name p.value = true) →
      (s.read_sensors sp r).state.have_fram = false →
      (s.read_sensors sp r).state.have_imt = false →
      (Event.ahrs_update ∈ (s.read_sensors sp r).events ↔
        r.type = "IMU2" ∨ (r.type = "IMU" ∧ s.have_imu2 = false))) ∧
    (∀ (s : Replay) (rs : List LogRecord) (j : Nat) (rj : LogRecord),
      (s.done_parameters = true ∨ ∀ p ∈ s.user_parameters, sp p.name p.value = true) →
      s.have_fram = false → s.have_imt = false → s.have_imu2 = false →
      rs[j]? = some rj →
      (∀ i ri, i ≤ j → rs[i]? = some ri →
        ri.type ≠ "FRAM" ∧ (s.use_imt = true → ri.type ≠ "IMT")) →
      ∃ ev, (Replay.read_sensors_seq sp s rs).trace[j]? = some ev ∧
        (Event.ahrs_update ∈ ev ↔
          rj.type = "IMU2" ∨
            (rj.type = "IMU" ∧ ∀ i ri, i < j → rs[i]? = some ri → ri.type ≠ "IMU2"))) ∧
    (∀ (s : Replay) (rs : List LogRecord) (j : Nat) (rj : LogRecord),
      (s.done_parameters = true ∨ ∀ p ∈ s.user_parameters, sp p.name p.value = true) →
      s.have_fram = false → s.have_imt = false → s.have_imu2 = false →
      (∀ r ∈ rs, r.type ≠ "IMU2" ∧ r.type ≠ "IMT" ∧ r.type ≠ "IMT2" ∧ r.type ≠ "FRAM") →
      rs[j]? = some rj →
      ∃ ev, (Replay.read_sensors_seq sp s rs).trace[j]? = some ev ∧
        (Event.ahrs_update ∈ ev ↔ rj.type = "IMU")) := by
  have seq : ∀ (s : Replay) (rs : List LogRecord) (j : Nat) (rj : LogRecord),
      (s.done_parameters = true ∨ ∀ p ∈ s.user_parameters, sp p.name p.value = true) →
      s.have_fram = false → s.have_imt = false → s.have_imu2 = false →
      rs[j]? = some rj →
      (∀ i ri, i ≤ j → rs[i]? = some ri →
        ri.type ≠ "FRAM" ∧ (s.use_imt = true → ri.type ≠ "IMT")) →
      ∃ ev, (Replay.read_sensors_seq sp s rs).trace[j]? = some ev ∧
        (Event.ahrs_update ∈ ev ↔
          rj.type = "IMU2" ∨
            (rj.type = "IMU" ∧ ∀ i ri, i < j → rs[i]? = some ri → ri.type ≠ "IMU2")) := by
    intro s rs j rj hok h1 h2 h3 hj hpre
    obtain ⟨hx0, hok2, htr⟩ := read_sensors_seq_entry sp s rs hok j rj hj
    obtain ⟨g1, g2, _, g4, _⟩ := read_sensors_seq_flags sp (rs.take j) s hx0
    obtain ⟨u, _, _⟩ := read_sensors_seq_frame sp (rs.take j) s
    have hnofram : (rs.take j).any (fun r => streq r.type "FRAM") = false := by
      rw [any_take_eq_false_iff]
      intro i ri hi hri
      simpa [streq] using (hpre i ri (by omega) hri).1
    have hnoimt : (s.use_imt && (rs.take j).any (fun r => streq r.type "IMT")) = false := by
      cases hu : s.use_imt with
      | false => rfl
      | true =>
        simp only [Bool.true_and]
        rw [any_take_eq_false_iff]
        intro i ri hi hri
        simpa [streq] using (hpre i ri (by omega) hri).2 hu
    rw [h1, hnofram] at g4
    rw [h2, hnoimt] at g2
    rw [h3] at g1
    have hx : ((Replay.read_sensors_seq sp s (rs.take j)).state.read_sensors sp rj).exit = none :=
      read_sensors_returns sp _ rj (by tauto)
    obtain ⟨_, f2, _, f4, _⟩ := read_sensors_flags sp _ rj hx
    have hj1 := hpre j rj (le_refl j) hj
    have hpf : ((Replay.read_sensors_seq sp s (rs.take j)).state.read_sensors sp
        rj).state.have_fram = false := by
      rw [f4, g4]
      simpa [streq] using hj1.1
    have hpi : ((Replay.read_sensors_seq sp s (rs.take j)).state.read_sensors sp
        rj).state.have_imt = false := by
      rw [f2, g2, u]
      cases hu : s.use_imt with
      | false => rfl
      | true => simpa [streq] using hj1.2 hu
    refine ⟨_, htr, ?_⟩
    rw [read_sensors_legacy_rule sp _ rj hx hpf hpi, g1]
    simp only [Bool.false_or, any_take_eq_false_iff]
    constructor
    · rintro (h | ⟨h, h5⟩)
      · exact Or.inl h
      · right
        refine ⟨h, fun i ri hi hri => ?_⟩
        simpa [streq] using h5 i ri hi hri
    · rintro (h | ⟨h, h5⟩)
      · exact Or.inl h
      · right
        refine ⟨h, fun i ri hi hri => ?_⟩
        simpa [streq] using h5 i ri hi hri
  refine ⟨?_, seq, ?_⟩
  · intro s r hok hfram himt
    exact read_sensors_legacy_rule sp s r (read_sensors_returns sp s r (by tauto)) hfram himt
  · intro s rs j rj hok h1 h2 h3 hnone hj
    obtain ⟨ev, hev, hiff⟩ := seq s rs j rj hok h1 h2 h3 hj (by
      intro i ri _ hri
      have := hnone ri (List.getElem?_mem hri)
      exact ⟨this.2.2.2, fun _ => this.2.1⟩)
    refine ⟨ev, hev, ?_⟩
    rw [hiff]
    constructor
    · rintro (h | ⟨h, _⟩)
      · exact absurd h (hnone rj (List.getElem?_mem hj)).1
      · exact h
    · intro h
      right
      refine ⟨h, fun i ri _ hri => (hnone ri (List.getElem?_mem hri)).1⟩

/-- In the run over `BARO`, `IMU`, `GPS`, `IMU` from the initial members the second
message, an `IMU` message, triggers. -/
theorem legacy_trigger_rule_witness :
    ∃ ev, (Replay.read_sensors_seq (fun _ _ => true) (Replay.init true (-1) [])
        [{ type := "BARO" }, { type := "IMU" }, { type := "GPS" }, { type := "IMU" }]).trace[1]? =
          some ev ∧
      (Event.ahrs_update ∈ ev ↔ ({ type := "IMU" } : LogRecord).type = "IMU") :=
  (legacy_trigger_rule (fun _ _ => true)).2.2 (Replay.init true (-1) [])
    [{ type := "BARO" }, { type := "IMU" }, { type := "GPS" }, { type := "IMU" }] 1
    { type := "IMU" } (Or.inr (by simp [Replay.init])) rfl rfl rfl (by decide) rfl

/-- C5. Sticky flags: over every message sequence handled by `read_sensors`, each
of `have_imu2`, `have_imt`, `have_imt2` and `have_fram`, once set, is still set
after any later messages; and once `have_imu2` is set no later `IMU` message
triggers an estimator update, and once `have_imt2` is set no later `IMT` message
does. -/
theorem sticky_flags (sp : String → Nat → Bool) (s : Replay) (rs : List LogRecord) :
    ((s.have_imu2 = true → (Replay.read_sensors_seq sp s rs).state.have_imu2 = true) ∧
      (s.have_imt = true → (Replay.read_sensors_seq sp s rs).state.have_imt = true) ∧
      (s.have_imt2 = true → (Replay.read_sensors_seq sp s rs).state.have_imt2 = true) ∧
      (s.have_fram = true → (Replay.read_sensors_seq sp s rs).state.have_fram = true)) ∧
    (s.have_imu2 = true → ∀ (j : Nat) (rj : LogRecord) (ev : List Event),
      rs[j]? = some rj → rj.type = "IMU" →
      (Replay.read_sensors_seq sp s rs).trace[j]? = some ev → Event.ahrs_update ∉ ev) ∧
    (s.have_imt2 = true → ∀ (j : Nat) (rj : LogRecord) (ev : List Event),
      rs[j]? = some rj → rj.type = "IMT" →
      (Replay.read_sensors_seq sp s rs).trace[j]? = some ev → Event.ahrs_update ∉ ev) := by
  refine ⟨read_sensors_seq_flags_mono sp rs s, ?_, ?_⟩
  · intro hs j rj ev hj hrj hev hmem
    obtain ⟨rj2, h1, _, h3⟩ := read_sensors_seq_trace sp rs s j ev hev
    have hr : rj2 = rj := by
      rw [hj] at h1
      exact (Option.some.inj h1).symm
    subst hr
    have hpre := (read_sensors_seq_flags_mono sp (rs.take j) s).1 hs
    have hpost := (read_sensors_flags_mono sp _ rj2).1 hpre
    rw [h3, read_sensors_trigger_iff, run_ahrs_iff] at hmem
    obtain ⟨_, hrun⟩ := hmem
    simp [hrj, hpost] at hrun
  · intro hs j rj ev hj hrj hev hmem
    obtain ⟨rj2, h1, _, h3⟩ := read_sensors_seq_trace sp rs s j ev hev
    have hr : rj2 = rj := by
      rw [hj] at h1
      exact (Option.some.inj h1).symm
    subst hr
    have hpre := (read_sensors_seq_flags_mono sp (rs.take j) s).2.2.1 hs
    have hpost := (read_sensors_flags_mono sp _ rj2).2.2.1 hpre
    rw [h3, read_sensors_trigger_iff, run_ahrs_iff] at hmem
    obtain ⟨_, hrun⟩ := hmem
    simp [hrj, hpost] at hrun

/-- After an `IMU2` message has set `have_imu2`, the flag survives the messages
`GPS`, `IMU`, and that `IMU` message does not trigger. -/
theorem sticky_flags_witness :
    (Replay.read_sensors_seq (fun _ _ => true)
        ((Replay.init true (-1) []).read_sensors (fun _ _ => true) { type := "IMU2" }).state
        [{ type := "GPS" }, { type := "IMU" }]).state.have_imu2 = true ∧
      (Replay.read_sensors_seq (fun _ _ => true)
        ((Replay.init true (-1) []).read_sensors (fun _ _ => true) { type := "IMU2" }).state
        [{ type := "GPS" }, { type := "IMU" }]).trace[1]? = some [] ∧
      Event.ahrs_update ∉ ([] : List Event) :=
  ⟨(sticky_flags (fun _ _ => true)
      ((Replay.init true (-1) []).read_sensors (fun _ _ => true) { type := "IMU2" }).state
      [{ type := "GPS" }, { type := "IMU" }]).1.1 (by decide),
    by decide,
    (sticky_flags (fun _ _ => true)
      ((Replay.init true (-1) []).read_sensors (fun _ _ => true) { type := "IMU2" }).state
      [{ type := "GPS" }, { type := "IMU" }]).2.1 (by decide) 1 { type := "IMU" } [] rfl rfl
      (by decide)⟩

/-! ## Override staging -/

/-- With the overrides done, or on an `FMT` or `PARM` message, `read_sensors` makes
no call of `set_parameter`. -/
theorem read_sensors_no_set_parameter (sp : String → Nat → Bool) (s : Replay) (r : LogRecord)
    (h : s.done_parameters = true ∨ r.type = "FMT" ∨ r.type = "PARM") :
    ∀ n v, Event.set_parameter n v ∉ (s.read_sensors sp r).events := by
  intro n v hm
  have hst := stage_parameters_closed sp s r.type h
  have hside := side_updates_events (s.note_formats r.type) r
  have hfr := frame_sync_events ((s.note_formats r.type).side_updates r).1 r.type
  have hup := (update_estimator_events
    (((s.note_formats r.type).side_updates r).1.frame_sync r.type).1 r).2
  unfold Replay.read_sensors at hm
  rw [hst] at hm
  simp only at hm
  split_ifs at hm
  · simp only [List.nil_append, List.mem_append] at hm
    rcases hm with (hm | hm) | hm
    · have := hside _ hm
      simp at this
    · have := hfr _ hm
      simp at this
    · have := hup _ hm
      simp at this
  · simp only [List.nil_append, List.mem_append] at hm
    rcases hm with hm | hm
    · have := hside _ hm
      simp at this
    · have := hfr _ hm
      simp at this

/-- On the first message that is neither `FMT` nor `PARM`, with every override
accepted, `read_sensors` first makes the calls of `set_parameter`, in the order of
the list, and then does what it does with the overrides done. -/
theorem read_sensors_staging (sp : String → Nat → Bool) (s : Replay) (r : LogRecord)
    (h0 : s.done_parameters = false) (h1 : r.type ≠ "FMT") (h2 : r.type ≠ "PARM")
    (hacc : ∀ p ∈ s.user_parameters, sp p.name p.value = true) :
    (s.read_sensors sp r).events =
      s.user_parameters.map (fun p => Event.set_parameter p.name p.value) ++
        (({ s with done_parameters := true } : Replay).read_sensors sp r).events := by
  have hopen := stage_parameters_open sp s r.type h0 h1 h2
  rw [set_user_parameters_loop_accepted sp _ hacc] at hopen
  have hclosed := stage_parameters_closed sp ({ s with done_parameters := true } : Replay)
    r.type (Or.inl rfl)
  unfold Replay.read_sensors
  rw [hopen, hclosed]
  simp only
  split_ifs <;> simp [List.append_assoc]

/-- A sequence of `FMT` and `PARM` messages leaves the members alone. -/
theorem read_sensors_seq_config (sp : String → Nat → Bool) (s : Replay) (rs : List LogRecord)
    (h : ∀ r ∈ rs, r.type = "FMT" ∨ r.type = "PARM") :
    (Replay.read_sensors_seq sp s rs).state = s ∧
      (Replay.read_sensors_seq sp s rs).exit = none := by
  induction rs with
  | nil => simp [Replay.read_sensors_seq]
  | cons r rest ih =>
    have hr := read_sensors_config sp s r (h r (List.mem_cons_self _ _))
    have hx : (s.read_sensors sp r).exit = none := by rw [hr]
    rw [read_sensors_seq_cons_ok sp s r rest hx, hr]
    exact ih (fun q hq => h q (List.mem_cons_of_mem _ hq))

/-- After a sequence on which `read_sensors` returned and that holds a message which
is neither `FMT` nor `PARM`, `done_parameters` is set. -/
theorem read_sensors_seq_done (sp : String → Nat → Bool) (rs : List LogRecord) :
    ∀ (s : Replay), (∃ r ∈ rs, r.type ≠ "FMT" ∧ r.type ≠ "PARM") →
      (Replay.read_sensors_seq sp s rs).state.done_parameters = true := by
  induction rs with
  | nil =>
    intro s h
    simp at h
  | cons r rest ih =>
    intro s h
    obtain ⟨_, _, _, _, _, d⟩ := read_sensors_frame sp s r
    by_cases hr : r.type ≠ "FMT" ∧ r.type ≠ "PARM"
    · have hd : (s.read_sensors sp r).state.done_parameters = true := by
        rw [d]
        simp [hr.1, hr.2]
      by_cases hx : (s.read_sensors sp r).exit = none
      · rw [read_sensors_seq_cons_ok sp s r rest hx]
        exact (read_sensors_seq_frame sp rest _).2.2 hd
      · rw [read_sensors_seq_cons_exit sp s r rest hx]
        exact hd
    · have hcfg : r.type = "FMT" ∨ r.type = "PARM" := by
        by_contra hc
        simp only [not_or] at hc
        exact hr hc
      have hstep := read_sensors_config sp s r hcfg
      have hx : (s.read_sensors sp r).exit = none := by rw [hstep]
      rw [read_sensors_seq_cons_ok sp s r rest hx]
      apply ih
      obtain ⟨q, hq, hq2⟩ := h
      rcases List.mem_cons.1 hq with rfl | hq
      · exact absurd hq2 hr
      · exact ⟨q, hq, hq2⟩

/-- C6. Parameter staging: in a run of `read_sensors` over any message sequence,
started with `done_parameters` clear and with every override accepted, every
message is handled; at the first message whose type is neither `FMT` nor `PARM`
the actions are the calls of `set_parameter` for the whole override list, in the
order supplied, followed by that message's side updates and trigger decision
(which hold no further call of `set_parameter`); and at every other message, the
`FMT` and `PARM` messages before it and all messages after it, no call of
`set_parameter` is made. -/
theorem overrides_applied_once (sp : String → Nat → Bool) (s : Replay) (rs : List LogRecord)
    (hstart : s.done_parameters = false)
    (hacc : ∀ p ∈ s.user_parameters, sp p.name p.value = true) :
    (Replay.read_sensors_seq sp s rs).trace.length = rs.length ∧
    ∀ (i : Nat) (ri : LogRecord), rs[i]? = some ri →
      ((ri.type ≠ "FMT" ∧ ri.type ≠ "PARM" ∧
          (∀ j rj, j < i → rs[j]? = some rj → rj.type = "FMT" ∨ rj.type = "PARM")) →
        (Replay.read_sensors_seq sp s rs).trace[i]? =
          some (s.user_parameters.map (fun p => Event.set_parameter p.name p.value) ++
            (({ s with done_parameters := true } : Replay).read_sensors sp ri).events) ∧
        ∀ n v, Event.set_parameter n v ∉
          (({ s with done_parameters := true } : Replay).read_sensors sp ri).events) ∧
      (¬ (ri.type ≠ "FMT" ∧ ri.type ≠ "PARM" ∧
          (∀ j rj, j < i → rs[j]? = some rj → rj.type = "FMT" ∨ rj.type = "PARM")) →
        ∃ ev, (Replay.read_sensors_seq sp s rs).trace[i]? = some ev ∧
          ∀ n v, Event.set_parameter n v ∉ ev) := by
  refine ⟨(read_sensors_seq_returns sp rs s (Or.inr hacc)).2, ?_⟩
  intro i ri hi
  obtain ⟨hx0, _, htr⟩ := read_sensors_seq_entry sp s rs (Or.inr hacc) i ri hi
  constructor
  · rintro ⟨h1, h2, h3⟩
    have hpre : ∀ r ∈ rs.take i, r.type = "FMT" ∨ r.type = "PARM" := by
      intro r hr
      obtain ⟨n, hn⟩ := List.mem_iff_getElem?.1 hr
      by_cases hni : n < i
      · rw [List.getElem?_take_of_lt hni] at hn
        exact h3 n r hni hn
      · rw [List.getElem?_take_eq_none (by omega)] at hn
        simp at hn
    have hs := (read_sensors_seq_config sp s (rs.take i) hpre).1
    rw [hs] at htr
    rw [htr, read_sensors_staging sp s ri hstart h1 h2 hacc]
    exact ⟨rfl, read_sensors_no_set_parameter sp _ ri (Or.inl rfl)⟩
  · intro hnot
    refine ⟨_, htr, ?_⟩
    by_cases hcfg : ri.type = "FMT" ∨ ri.type = "PARM"
    · exact read_sensors_no_set_parameter sp _ ri (Or.inr hcfg)
    · have hex : ∃ r ∈ rs.take i, r.type ≠ "FMT" ∧ r.type ≠ "PARM" := by
        by_contra hc
        apply hnot
        simp only [not_or] at hcfg
        refine ⟨hcfg.1, hcfg.2, ?_⟩
        intro j rj hj hrj
        by_contra hc2
        apply hc
        refine ⟨rj, ?_, by simpa [not_or] using hc2⟩
        apply List.getElem?_mem (n := j)
        rw [List.getElem?_take_of_lt hj]
        exact hrj
      have hd := read_sensors_seq_done sp (rs.take i) s hex
      exact read_sensors_no_set_parameter sp _ ri (Or.inl hd)

/-- The run over `FMT`, `PARM`, `BARO`, `IMU` with the overrides `A`, `B`: the
trace has four entries and the third, for `BARO`, starts with the two calls. -/
theorem overrides_applied_once_witness :
    (Replay.read_sensors_seq (fun _ _ => true)
        (Replay.init true (-1) [⟨"A", 1⟩, ⟨"B", 2⟩])
        [{ type := "FMT" }, { type := "PARM" }, { type := "BARO" }, { type := "IMU" }]).trace
      = [[], [], [Event.set_parameter "A" 1, Event.set_parameter "B" 2, Event.baro_update,
          Event.baro_update_calibration], [Event.ahrs_update, Event.log_write]] ∧
    (Replay.read_sensors_seq (fun _ _ => true)
        (Replay.init true (-1) [⟨"A", 1⟩, ⟨"B", 2⟩])
        [{ type := "FMT" }, { type := "PARM" }, { type := "BARO" }, { type := "IMU" }]).trace.length
      = 4 :=
  ⟨by decide,
    (overrides_applied_once (fun _ _ => true) (Replay.init true (-1) [⟨"A", 1⟩, ⟨"B", 2⟩])
      [{ type := "FMT" }, { type := "PARM" }, { type := "BARO" }, { type := "IMU" }] rfl
      (by simp)).1⟩

/-- A list with a refused override splits at the first refused entry: the loop of
`set_user_parameters` calls `set_parameter` on the entries up to and including
it, reports the failure and ends the process with exit code 1. -/
theorem set_user_parameters_loop_rejected (sp : String → Nat → Bool)
    (ps : List UserParameter) (h : ∃ p ∈ ps, sp p.name p.value = false) :
    ∃ pre bad post, ps = pre ++ bad :: post ∧ (∀ p ∈ pre, sp p.name p.value = true) ∧
      sp bad.name bad.value = false ∧
      set_user_parameters_loop sp ps =
        (pre.map (fun p => Event.set_parameter p.name p.value) ++
          [Event.set_parameter bad.name bad.value,
            Event.failed_to_set_parameter bad.name bad.value], some 1) := by
  induction ps with
  | nil => simp at h
  | cons p rest ih =>
    by_cases hp : sp p.name p.value = true
    · have hrest : ∃ q ∈ rest, sp q.name q.value = false := by
        obtain ⟨q, hq, hq2⟩ := h
        rcases List.mem_cons.1 hq with rfl | hq
        · simp [hp] at hq2
        · exact ⟨q, hq, hq2⟩
      obtain ⟨pre, bad, post, e1, e2, e3, e4⟩ := ih hrest
      refine ⟨p :: pre, bad, post, by simp [e1], ?_, e3, ?_⟩
      · intro q hq
        rcases List.mem_cons.1 hq with rfl | hq
        · exact hp
        · exact e2 q hq
      · simp [set_user_parameters_loop, hp, e4]
    · have hp2 : sp p.name p.value = false := by simpa using hp
      exact ⟨[], p, rest, rfl, by simp, hp2, by simp [set_user_parameters_loop, hp2]⟩

/-- C7. A refused override is fatal: when the override list holds an entry the
parameter system refuses, `set_user_parameters` calls `set_parameter` on the
entries up to and including the first refused one and ends the process with exit
code 1; over every message sequence handled from the start (`done_parameters`
clear) no estimator update is ever triggered; and as soon as the sequence holds a
message that is neither `FMT` nor `PARM`, the run ends at the first such message
with exit code 1, its actions there being those of `set_user_parameters`. -/
theorem rejected_override_is_fatal (sp : String → Nat → Bool) (s : Replay)
    (hstart : s.done_parameters = false)
    (hbad : ∃ p ∈ s.user_parameters, sp p.name p.value = false) :
    (∃ pre bad post, s.user_parameters = pre ++ bad :: post ∧
      (∀ p ∈ pre, sp p.name p.value = true) ∧ sp bad.name bad.value = false ∧
      s.set_user_parameters sp =
        (pre.map (fun p => Event.set_parameter p.name p.value) ++
          [Event.set_parameter bad.name bad.value,
            Event.failed_to_set_parameter bad.name bad.value], some 1)) ∧
    (∀ (rs : List LogRecord), ∀ ev ∈ (Replay.read_sensors_seq sp s rs).trace,
      Event.ahrs_update ∉ ev) ∧
    (∀ (rs : List LogRecord) (k : Nat) (rk : LogRecord),
      rs[k]? = some rk → rk.type ≠ "FMT" → rk.type ≠ "PARM" →
      (∀ j rj, j < k → rs[j]? = some rj → rj.type = "FMT" ∨ rj.type = "PARM") →
      (Replay.read_sensors_seq sp s rs).exit = some 1 ∧
        (Replay.read_sensors_seq sp s rs).trace.length = k + 1 ∧
        (Replay.read_sensors_seq sp s rs).trace[k]? = some (s.set_user_parameters sp).1) := by
  have habort : ∀ r : LogRecord, r.type ≠ "FMT" → r.type ≠ "PARM" →
      (s.read_sensors sp r).exit = some 1 ∧
        (s.read_sensors sp r).events = (s.set_user_parameters sp).1 := by
    intro r h1 h2
    rcases read_sensors_exit sp s r with ⟨_, h | h | h | h⟩ | ⟨hx, _⟩
    · simp [hstart] at h
    · exact absurd h h1
    · exact absurd h h2
    · obtain ⟨p, hp, hp2⟩ := hbad
      simp [h p hp] at hp2
    · exact ⟨hx, read_sensors_events_of_exit sp s r (by simp [hx])⟩
  refine ⟨set_user_parameters_loop_rejected sp _ hbad, ?_, ?_⟩
  · intro rs
    induction rs with
    | nil => simp [Replay.read_sensors_seq]
    | cons r rest ih =>
      by_cases hcfg : r.type = "FMT" ∨ r.type = "PARM"
      · have hstep := read_sensors_config sp s r hcfg
        have hx : (s.read_sensors sp r).exit = none := by rw [hstep]
        rw [read_sensors_seq_cons_ok sp s r rest hx, hstep]
        intro ev hev
        rcases List.mem_cons.1 hev with rfl | hev
        · simp
        · exact ih ev hev
      · simp only [not_or] at hcfg
        obtain ⟨hx, hev⟩ := habort r hcfg.1 hcfg.2
        rw [read_sensors_seq_cons_exit sp s r rest (by simp [hx])]
        intro ev hmem
        simp only [List.mem_singleton] at hmem
        subst hmem
        intro hm
        rw [hev] at hm
        rcases set_user_parameters_loop_events sp _ _ hm with ⟨n, v, hv⟩ | ⟨n, v, hv⟩ <;>
          simp at hv
  · intro rs
    induction rs with
    | nil =>
      intro k rk hk
      simp at hk
    | cons r rest ih =>
      intro k rk hk h1 h2 hpre
      cases k with
      | zero =>
        have hr : r = rk := by simpa using hk
        subst hr
        obtain ⟨hx, hev⟩ := habort r h1 h2
        rw [read_sensors_seq_cons_exit sp s r rest (by simp [hx])]
        simp [hx, hev]
      | succ k =>
        have hcfg := hpre 0 r (by omega) (by simp)
        have hstep := read_sensors_config sp s r hcfg
        have hx : (s.read_sensors sp r).exit = none := by rw [hstep]
        rw [read_sensors_seq_cons_ok sp s r rest hx, hstep]
        have := ih k rk (by simpa using hk) h1 h2 (by
          intro j rj hj hrj
          exact hpre (j + 1) rj (by omega) (by simpa using hrj))
        simpa using this

/-- With the overrides `A` (accepted) and `BAD` (refused), the run over `FMT`,
`BARO`, `IMU` ends at `BARO` with exit code 1, after the call for `A`, the call
for `BAD` and the failure message. -/
theorem rejected_override_is_fatal_witness :
    (Replay.read_sensors_seq (fun n _ => n != "BAD")
        (Replay.init true (-1) [⟨"A", 1⟩, ⟨"BAD", 2⟩, ⟨"C", 3⟩])
        [{ type := "FMT" }, { type := "BARO" }, { type := "IMU" }]).exit = some 1 ∧
      (Replay.read_sensors_seq (fun n _ => n != "BAD")
        (Replay.init true (-1) [⟨"A", 1⟩, ⟨"BAD", 2⟩, ⟨"C", 3⟩])
        [{ type := "FMT" }, { type := "BARO" }, { type := "IMU" }]).trace.length = 1 + 1 ∧
      (Replay.read_sensors_seq (fun n _ => n != "BAD")
        (Replay.init true (-1) [⟨"A", 1⟩, ⟨"BAD", 2⟩, ⟨"C", 3⟩])
        [{ type := "FMT" }, { type := "BARO" }, { type := "IMU" }]).trace[1]? =
          some ((Replay.init true (-1) [⟨"A", 1⟩, ⟨"BAD", 2⟩, ⟨"C", 3⟩]).set_user_parameters
            (fun n _ => n != "BAD")).1 :=
  (rejected_override_is_fatal (fun n _ => n != "BAD")
    (Replay.init true (-1) [⟨"A", 1⟩, ⟨"BAD", 2⟩, ⟨"C", 3⟩]) rfl
    ⟨⟨"BAD", 2⟩, by simp [Replay.init], by decide⟩).2.2
    [{ type := "FMT" }, { type := "BARO" }, { type := "IMU" }] 1 { type := "BARO" } rfl
    (by decide) (by decide) (by
      intro j rj hj hrj
      have hj0 : j = 0 := by omega
      subst hj0
      simp at hrj
      subst hrj
      exact Or.inl rfl)

/-! ## The alternate inertial format -/

/-- Some message before position `j` satisfies `p` exactly when `any p` holds on
the first `j` messages. -/
theorem any_take_eq_true_iff (p : LogRecord → Bool) (rs : List LogRecord) (j : Nat) :
    (rs.take j).any p = true ↔ ∃ i ri, i < j ∧ rs[i]? = some ri ∧ p ri = true := by
  rw [List.any_eq_true]
  constructor
  · rintro ⟨x, hx, hp⟩
    obtain ⟨n, hn⟩ := List.mem_iff_getElem?.1 hx
    by_cases hnj : n < j
    · rw [List.getElem?_take_of_lt hnj] at hn
      exact ⟨n, x, hnj, hn, hp⟩
    · rw [List.getElem?_take_eq_none (by omega)] at hn
      simp at hn
  · rintro ⟨i, ri, hi, hri, hp⟩
    refine ⟨ri, ?_, hp⟩
    apply List.getElem?_mem (n := i)
    rw [List.getElem?_take_of_lt hi]
    exact hri

/-- The alternate rule for one message, in terms of the members before the call. -/
theorem read_sensors_alternate_rule (sp : String → Nat → Bool) (s : Replay) (r : LogRecord)
    (hx : (s.read_sensors sp r).exit = none) :
    (r.type = "IMT" →
      (Event.ahrs_update ∈ (s.read_sensors sp r).events ↔
        (s.use_imt = true ∨ s.have_imt = true) ∧ s.have_imt2 = false)) ∧
    (r.type = "IMT2" →
      (Event.ahrs_update ∈ (s.read_sensors sp r).events ↔
        s.have_imt = true ∧ (s.use_imt = true ∨ s.have_imt2 = true))) := by
  obtain ⟨_, f2, f3, _, _⟩ := read_sensors_flags sp s r hx
  constructor
  · intro hr
    rw [read_sensors_trigger_iff, run_ahrs_iff, f2, f3, hr]
    cases s.use_imt <;> cases s.have_imt <;> cases s.have_imt2 <;> simp [hx]
  · intro hr
    rw [read_sensors_trigger_iff, run_ahrs_iff, f2, f3, hr]
    cases s.use_imt <;> cases s.have_imt <;> cases s.have_imt2 <;> simp [hx]

/-- The claim C10 as stated fails: in the run over a `FRAM` message followed by an
`IMT` message, from the initial members and with no overrides, `have_fram` is set
by the first message and the `IMT` message still triggers an estimator update. -/
theorem imt_triggers_after_fram :
    ((Replay.init true (-1) []).read_sensors (fun _ _ => true)
        { type := "FRAM" }).state.have_fram = true ∧
      (Replay.read_sensors_seq (fun _ _ => true) (Replay.init true (-1) [])
        [{ type := "FRAM" }, { type := "IMT" }]).trace[1]? =
          some [Event.ahrs_update, Event.log_write] := by
  decide

/-- C10, amended. The alternate inertial format rule is consulted whatever
`have_fram` is.  For one message that `read_sensors` gets to handle: an `IMT`
message triggers an estimator update if and only if `have_imt2` is clear and
`have_imt` is set or gets set by this message (`use_imt`); an `IMT2` message
triggers if and only if `have_imt` is set and `have_imt2` is set or gets set by
this message.  For a sequence started with `have_imt` and `have_imt2` clear,
whether or not `have_fram` is set and whether or not `FRAM` messages occur: an
`IMT` message triggers if and only if `use_imt` holds and no `IMT2` message came
before it, and an `IMT2` message triggers if and only if `use_imt` holds and an
`IMT` message came before it. -/
theorem alternate_rule_ignores_fram (sp : String → Nat → Bool) (s : Replay)
    (hok : s.done_parameters = true ∨ ∀ p ∈ s.user_parameters, sp p.name p.value = true) :
    (∀ r : LogRecord,
      (r.type = "IMT" →
        (Event.ahrs_update ∈ (s.read_sensors sp r).events ↔
          (s.use_imt = true ∨ s.have_imt = true) ∧ s.have_imt2 = false)) ∧
      (r.type = "IMT2" →
        (Event.ahrs_update ∈ (s.read_sensors sp r).events ↔
          s.have_imt = true ∧ (s.use_imt = true ∨ s.have_imt2 = true)))) ∧
    (s.have_imt = false → s.have_imt2 = false →
      ∀ (rs : List LogRecord) (j : Nat) (rj : LogRecord), rs[j]? = some rj →
        (rj.type = "IMT" →
          ∃ ev, (Replay.read_sensors_seq sp s rs).trace[j]? = some ev ∧
            (Event.ahrs_update ∈ ev ↔
              s.use_imt = true ∧ ∀ i ri, i < j → rs[i]? = some ri → ri.type ≠ "IMT2")) ∧
        (rj.type = "IMT2" →
          ∃ ev, (Replay.read_sensors_seq sp s rs).trace[j]? = some ev ∧
            (Event.ahrs_update ∈ ev ↔
              s.use_imt = true ∧ ∃ i ri, i < j ∧ rs[i]? = some ri ∧ ri.type = "IMT"))) := by
  refine ⟨fun r => read_sensors_alternate_rule sp s r (read_sensors_returns sp s r (by tauto)),
    ?_⟩
  intro h1 h2 rs j rj hj
  obtain ⟨hx0, hok2, htr⟩ := read_sensors_seq_entry sp s rs hok j rj hj
  obtain ⟨_, g2, g3, _, _⟩ := read_sensors_seq_flags sp (rs.take j) s hx0
  obtain ⟨u, _, _⟩ := read_sensors_seq_frame sp (rs.take j) s
  have hx : ((Replay.read_sensors_seq sp s (rs.take j)).state.read_sensors sp rj).exit = none :=
    read_sensors_returns sp _ rj (by tauto)
  obtain ⟨r1, r2⟩ := read_sensors_alternate_rule sp _ rj hx
  rw [h1] at g2
  rw [h2] at g3
  constructor
  · intro hr
    refine ⟨_, htr, ?_⟩
    rw [r1 hr, g2, g3, u]
    cases hu : s.use_imt with
    | false => simp
    | true =>
      simp only [Bool.true_and, Bool.false_or, true_or, true_and, any_take_eq_false_iff]
      constructor
      · intro h i ri hi hri
        simpa using h i ri hi hri
      · intro h i ri hi hri
        simpa using h i ri hi hri
  · intro hr
    refine ⟨_, htr, ?_⟩
    rw [r2 hr, g2, g3, u]
    cases hu : s.use_imt with
    | false => simp
    | true =>
      simp only [Bool.true_and, Bool.false_or, true_or, and_true, true_and,
        any_take_eq_true_iff]
      constructor
      · rintro ⟨i, ri, hi, hri, hp⟩
        exact ⟨i, ri, hi, hri, by simpa using hp⟩
      · rintro ⟨i, ri, hi, hri, hp⟩
        exact ⟨i, ri, hi, hri, by simpa using hp⟩

/-- With `have_fram` set by a `FRAM` message, a following `IMT` message triggers,
`use_imt` being set and `have_imt2` clear. -/
theorem alternate_rule_ignores_fram_witness :
    Event.ahrs_update ∈
      (((Replay.init true (-1) []).read_sensors (fun _ _ => true)
        { type := "FRAM" }).state.read_sensors (fun _ _ => true) { type := "IMT" }).events :=
  (((alternate_rule_ignores_fram (fun _ _ => true)
    ((Replay.init true (-1) []).read_sensors (fun _ _ => true) { type := "FRAM" }).state
    (Or.inl (by decide))).1 { type := "IMT" }).1 rfl).2 ⟨Or.inl (by decide), by decide⟩

/-! ## The arm-time gate -/

/-- The gate for a threshold in the non-negative range of `int32_t`. -/
theorem arm_gate_of_nonneg (s : Replay) (now : Nat) (h0 : 0 ≤ s.arm_time_ms)
    (h1 : s.arm_time_ms < 2147483648) :
    s.arm_gate now =
      if s.arm_time_ms < (now : Int) then
        (if s.soft_armed = true then (s, []) else
          ({ s with soft_armed := true }, [Event.arming now]))
      else (s, []) := by
  have hu : (uint32_of s.arm_time_ms : Int) = s.arm_time_ms := by
    unfold uint32_of
    rw [Int.emod_eq_of_lt h0 (by omega)]
    exact Int.toNat_of_nonneg h0
  have hiff : uint32_of s.arm_time_ms < now ↔ s.arm_time_ms < (now : Int) := by
    constructor
    · intro h
      have : (uint32_of s.arm_time_ms : Int) < (now : Int) := Int.ofNat_lt.2 h
      omega
    · intro h
      have : (uint32_of s.arm_time_ms : Int) < (now : Int) := by omega
      exact Int.ofNat_lt.1 this
  unfold Replay.arm_gate
  by_cases hlt : s.arm_time_ms < (now : Int)
  · have := hiff.2 hlt
    cases hs : s.soft_armed <;> simp [h0, this, hlt, hs]
  · have : ¬ uint32_of s.arm_time_ms < now := fun h => hlt (hiff.1 h)
    simp [this, hlt]

/-- The gate with the threshold disabled. -/
theorem arm_gate_of_neg (s : Replay) (now : Nat) (h : s.arm_time_ms < 0) :
    s.arm_gate now = (s, []) := by
  unfold Replay.arm_gate
  have : ¬ 0 ≤ s.arm_time_ms := by omega
  simp [this]

/-- Once armed, the gate changes nothing and reports nothing. -/
theorem arm_gate_seq_of_armed (cs : List Nat) :
    ∀ (s : Replay), s.soft_armed = true →
      ∀ st ∈ s.arm_gate_seq cs, st.1 = s ∧ st.2 = [] := by
  induction cs with
  | nil =>
    intro s _ st hst
    simp [Replay.arm_gate_seq] at hst
  | cons c rest ih =>
    intro s hs st hst
    have hg : s.arm_gate c = (s, []) := by
      unfold Replay.arm_gate
      split_ifs <;> simp_all
    simp only [Replay.arm_gate_seq, hg, List.mem_cons] at hst
    rcases hst with rfl | hst
    · exact ⟨rfl, rfl⟩
    · exact ih s hs st hst

theorem arm_gate_seq_length (cs : List Nat) :
    ∀ (s : Replay), (s.arm_gate_seq cs).length = cs.length := by
  induction cs with
  | nil =>
    intro s
    rfl
  | cons c rest ih =>
    intro s
    simp [Replay.arm_gate_seq, ih]

/-- The gate from a disarmed state, step by step. -/
theorem arm_gate_seq_of_disarmed (cs : List Nat) :
    ∀ (s : Replay), 0 ≤ s.arm_time_ms → s.arm_time_ms < 2147483648 → s.soft_armed = false →
      ∀ (i c : Nat) (st : Replay × List Event),
        cs[i]? = some c → (s.arm_gate_seq cs)[i]? = some st →
        (st.1.soft_armed = true ↔ ∃ j cj, j ≤ i ∧ cs[j]? = some cj ∧ s.arm_time_ms < (cj : Int)) ∧
        ((s.arm_time_ms < (c : Int) ∧
            ∀ j cj, j < i → cs[j]? = some cj → (cj : Int) ≤ s.arm_time_ms) →
          st.2 = [Event.arming c]) ∧
        (¬ (s.arm_time_ms < (c : Int) ∧
            ∀ j cj, j < i → cs[j]? = some cj → (cj : Int) ≤ s.arm_time_ms) →
          st.2 = []) := by
  induction cs with
  | nil =>
    intro s _ _ _ i c st hc
    simp at hc
  | cons c0 rest ih =>
    intro s h0 h1 hs i c st hc hst
    have hg := arm_gate_of_nonneg s c0 h0 h1
    simp only [hs, Bool.false_eq_true, if_false] at hg
    cases i with
    | zero =>
      have hcc : c0 = c := by simpa using hc
      subst hcc
      simp only [Replay.arm_gate_seq, List.getElem?_cons_zero, Option.some.injEq] at hst
      subst hst
      by_cases hlt : s.arm_time_ms < (c0 : Int)
      · rw [hg, if_pos hlt]
        refine ⟨⟨fun _ => ⟨0, c0, le_refl 0, by simp, hlt⟩, fun _ => rfl⟩, fun _ => rfl, ?_⟩
        intro hn
        exact absurd ⟨hlt, fun j cj hj _ => absurd hj (by omega)⟩ hn
      · rw [hg, if_neg hlt]
        refine ⟨⟨fun h => ?_, ?_⟩, fun h => absurd h.1 hlt, fun _ => rfl⟩
        · simp [hs] at h
        · rintro ⟨j, cj, hj, hcj, hlt2⟩
          have hj0 : j = 0 := by omega
          subst hj0
          have : c0 = cj := by simpa using hcj
          subst this
          exact absurd hlt2 hlt
    | succ i =>
      simp only [Replay.arm_gate_seq, List.getElem?_cons_succ] at hst hc
      by_cases hlt : s.arm_time_ms < (c0 : Int)
      · rw [hg, if_pos hlt] at hst
        obtain ⟨e1, e2⟩ := arm_gate_seq_of_armed rest _ rfl st (List.getElem?_mem hst)
        refine ⟨⟨fun _ => ⟨0, c0, by omega, by simp, hlt⟩, fun _ => by rw [e1]⟩, ?_, fun _ => e2⟩
        rintro ⟨_, hall⟩
        have := hall 0 c0 (by omega) (by simp)
        omega
      · rw [hg, if_neg hlt] at hst
        obtain ⟨a1, a2, a3⟩ := ih s h0 h1 hs i c st hc hst
        have hshift : (s.arm_time_ms < (c : Int) ∧
            ∀ j cj, j < i + 1 → (c0 :: rest)[j]? = some cj → (cj : Int) ≤ s.arm_time_ms) ↔
            (s.arm_time_ms < (c : Int) ∧
            ∀ j cj, j < i → rest[j]? = some cj → (cj : Int) ≤ s.arm_time_ms) := by
          constructor
          · rintro ⟨hh, hall⟩
            exact ⟨hh, fun j cj hj hcj => hall (j + 1) cj (by omega) (by simpa using hcj)⟩
          · rintro ⟨hh, hall⟩
            refine ⟨hh, fun j cj hj hcj => ?_⟩
            cases j with
            | zero =>
              have : c0 = cj := by simpa using hcj
              subst this
              omega
            | succ j => exact hall j cj (by omega) (by simpa using hcj)
        refine ⟨?_, fun h => a2 (hshift.1 h), fun h => a3 (fun h2 => h (hshift.2 h2))⟩
        rw [a1]
        constructor
        · rintro ⟨j, cj, hj, hcj, hlt2⟩
          exact ⟨j + 1, cj, by omega, by simpa using hcj, hlt2⟩
        · rintro ⟨j, cj, hj, hcj, hlt2⟩
          cases j with
          | zero =>
            have : c0 = cj := by simpa using hcj
            subst this
            exact absurd hlt2 hlt
          | succ j => exact ⟨j, cj, by omega, by simpa using hcj, hlt2⟩

/-- The number of reports of the gate over a sequence of clock readings. -/
theorem arm_gate_seq_reports (cs : List Nat) :
    ∀ (s : Replay), 0 ≤ s.arm_time_ms → s.arm_time_ms < 2147483648 → s.soft_armed = false →
      ((s.arm_gate_seq cs).map (fun st => st.2.length)).sum ≤ 1 ∧
      ((∃ c ∈ cs, s.arm_time_ms < (c : Int)) →
        ((s.arm_gate_seq cs).map (fun st => st.2.length)).sum = 1) := by
  induction cs with
  | nil =>
    intro s _ _ _
    simp [Replay.arm_gate_seq]
  | cons c0 rest ih =>
    intro s h0 h1 hs
    have hg := arm_gate_of_nonneg s c0 h0 h1
    simp only [hs, Bool.false_eq_true, if_false] at hg
    by_cases hlt : s.arm_time_ms < (c0 : Int)
    · rw [if_pos hlt] at hg
      have hzero : ((Replay.arm_gate_seq { s with soft_armed := true } rest).map
          (fun st => st.2.length)).sum = 0 := by
        apply List.sum_eq_zero
        intro n hn
        obtain ⟨st, hst, rfl⟩ := List.mem_map.1 hn
        rw [(arm_gate_seq_of_armed rest _ rfl st hst).2]
        rfl
      simp only [Replay.arm_gate_seq, hg, List.map_cons, List.sum_cons, hzero,
        List.length_singleton]
      simp
    · rw [if_neg hlt] at hg
      obtain ⟨b1, b2⟩ := ih s h0 h1 hs
      simp only [Replay.arm_gate_seq, hg, List.map_cons, List.sum_cons, List.length_nil,
        Nat.zero_add]
      refine ⟨b1, ?_⟩
      rintro ⟨c, hc, hc2⟩
      rcases List.mem_cons.1 hc with rfl | hc
      · exact absurd hc2 hlt
      · exact b2 ⟨c, hc, hc2⟩

/-- The gate with the threshold disabled, over a sequence of clock readings. -/
theorem arm_gate_seq_of_neg (cs : List Nat) :
    ∀ (s : Replay), s.arm_time_ms < 0 → ∀ st ∈ s.arm_gate_seq cs, st.1 = s ∧ st.2 = [] := by
  induction cs with
  | nil =>
    intro s _ st hst
    simp [Replay.arm_gate_seq] at hst
  | cons c rest ih =>
    intro s hs st hst
    simp only [Replay.arm_gate_seq, arm_gate_of_neg s c hs, List.mem_cons] at hst
    rcases hst with rfl | hst
    · exact ⟨rfl, rfl⟩
    · exact ih s hs st hst

/-- C9. The arm-time gate of `loop`, applied at each of a sequence of clock
readings.  With a threshold `T = arm_time_ms` that is not negative and a disarmed
start, for every sequence of readings (non-decreasing or not): the armed flag is
set after a step if and only if some reading up to that step exceeded `T`, so it
becomes set at the first such step and stays set; the step reports `Arming`
exactly when its reading is the first to exceed `T`; over the whole sequence at
most one report is made, and exactly one when some reading exceeds `T`.  With a
negative threshold no step changes the members or reports. -/
theorem arm_time_gate (s : Replay) (cs : List Nat) :
    (0 ≤ s.arm_time_ms → s.arm_time_ms < 2147483648 → s.soft_armed = false →
      (s.arm_gate_seq cs).length = cs.length ∧
      (∀ (i c : Nat) (st : Replay × List Event),
        cs[i]? = some c → (s.arm_gate_seq cs)[i]? = some st →
        (st.1.soft_armed = true ↔
          ∃ j cj, j ≤ i ∧ cs[j]? = some cj ∧ s.arm_time_ms < (cj : Int)) ∧
        ((s.arm_time_ms < (c : Int) ∧
            ∀ j cj, j < i → cs[j]? = some cj → (cj : Int) ≤ s.arm_time_ms) →
          st.2 = [Event.arming c]) ∧
        (¬ (s.arm_time_ms < (c : Int) ∧
            ∀ j cj, j < i → cs[j]? = some cj → (cj : Int) ≤ s.arm_time_ms) →
          st.2 = [])) ∧
      ((s.arm_gate_seq cs).map (fun st => st.2.length)).sum ≤ 1 ∧
      ((∃ c ∈ cs, s.arm_time_ms < (c : Int)) →
        ((s.arm_gate_seq cs).map (fun st => st.2.length)).sum = 1)) ∧
    (s.arm_time_ms < 0 → ∀ st ∈ s.arm_gate_seq cs, st.1 = s ∧ st.2 = []) := by
  refine ⟨fun h0 h1 hs => ⟨arm_gate_seq_length cs s, arm_gate_seq_of_disarmed cs s h0 h1 hs, ?_⟩,
    arm_gate_seq_of_neg cs s⟩
  exact arm_gate_seq_reports cs s h0 h1 hs

/-- With the threshold 5000 and the readings 0, 4000, 5000, 5001, 9000 exactly one
report is made; with the threshold -1 a step at reading 9000 does nothing. -/
theorem arm_time_gate_witness :
    (((Replay.init true 5000 []).arm_gate_seq [0, 4000, 5000, 5001, 9000]).map
        (fun st => st.2.length)).sum = 1 ∧
      ((Replay.init true 5000 []).arm_gate_seq [0, 4000, 5000, 5001, 9000]).map
        (fun st => (st.1.soft_armed, st.2)) =
          [(false, []), (false, []), (false, []), (true, [Event.arming 5001]), (true, [])] ∧
      ((Replay.init true (-1) []).arm_gate 9000).2 = [] :=
  ⟨((arm_time_gate (Replay.init true 5000 []) [0, 4000, 5000, 5001, 9000]).1
      (by decide) (by decide) rfl).2.2.2 ⟨9000, by decide, by decide⟩,
    by decide,
    ((arm_time_gate (Replay.init true (-1) []) [9000]).2 (by decide)
      ((Replay.init true (-1) []).arm_gate 9000) (by simp [Replay.arm_gate_seq])).2⟩

/-! ## Home initialisation -/

/-- No call of `read_sensors` commits the home location. -/
theorem read_sensors_no_set_home (sp : String → Nat → Bool) (s : Replay) (r : LogRecord) :
    Event.set_home ∉ (s.read_sensors sp r).events := by
  intro hm
  have hst : ∀ e ∈ (s.stage_parameters sp r.type).2.1, e ≠ Event.set_home := by
    intro e he
    unfold Replay.stage_parameters at he
    split_ifs at he
    · rcases set_user_parameters_loop_events sp _ e he with ⟨n, v, rfl⟩ | ⟨n, v, rfl⟩ <;> simp
    · simp at he
  have hside := side_updates_events ((s.stage_parameters sp r.type).1.note_formats r.type) r
  have hfr := frame_sync_events
    (((s.stage_parameters sp r.type).1.note_formats r.type).side_updates r).1 r.type
  have hup := (update_estimator_events
    ((((s.stage_parameters sp r.type).1.note_formats r.type).side_updates r).1.frame_sync
      r.type).1 r).2
  rcases stage_parameters_exit sp s r.type with ⟨h1, _⟩ | ⟨h1, _⟩
  · unfold Replay.read_sensors at hm
    simp only [h1] at hm
    split_ifs at hm
    · simp only [List.mem_append] at hm
      rcases hm with ((hm | hm) | hm) | hm
      · exact hst _ hm rfl
      · have := hside _ hm
        simp at this
      · have := hfr _ hm
        simp at this
      · have := hup _ hm
        simp at this
    · simp only [List.mem_append] at hm
      rcases hm with (hm | hm) | hm
      · exact hst _ hm rfl
      · have := hside _ hm
        simp at this
      · have := hfr _ hm
        simp at this
  · unfold Replay.read_sensors at hm
    simp only [h1] at hm
    exact hst _ hm rfl

/-- The arm-time gate does not commit the home location. -/
theorem arm_gate_no_set_home (s : Replay) (now : Nat) :
    Event.set_home ∉ (s.arm_gate now).2 := by
  unfold Replay.arm_gate
  split_ifs <;> simp

/-- No pass through the body of `loop` commits the home location. -/
theorem loop_no_set_home (sp : String → Nat → Bool) (rs : List LogRecord) :
    ∀ (s : Replay) (now : Nat), ∀ it ∈ (Replay.loop sp s now rs).trace,
      Event.set_home ∉ it.before ++ it.sensors ++ it.after := by
  induction rs with
  | nil =>
    intro s now it hit
    simp only [Replay.loop, List.mem_singleton] at hit
    subst hit
    have := arm_gate_no_set_home s now
    simp [this]
  | cons r rest ih =>
    intro s now it hit
    have hg := arm_gate_no_set_home s now
    have hr := read_sensors_no_set_home sp (s.arm_gate now).1 r
    simp only [Replay.loop] at hit
    split at hit
    · simp only [List.mem_singleton] at hit
      subst hit
      simp [hg, hr]
    · simp only [List.mem_cons] at hit
      rcases hit with rfl | hit
      · simp only [List.mem_append, not_or]
        refine ⟨⟨hg, hr⟩, ?_⟩
        split_ifs <;> simp
      · exact ih _ _ it hit

/-- Once `done_home_init` is set, `setup` has returned and `loop` runs. -/
theorem setup_of_done (sp : String → Nat → Bool) (s : Replay) (now : Nat)
    (rs : List LogRecord) (h : s.done_home_init = true) :
    Replay.setup sp s now rs = Replay.loop sp s now rs := by
  cases rs with
  | nil => simp [Replay.setup]
  | cons r rest => simp [Replay.setup, h]

/-- The pass of the loop of `setup` in which `read_sensors` ends the process. -/
theorem setup_cons_exit (sp : String → Nat → Bool) (s : Replay) (now : Nat) (r : LogRecord)
    (rest : List LogRecord) (h : s.done_home_init = false)
    (hx : (s.read_sensors sp r).exit ≠ none) :
    Replay.setup sp s now (r :: rest) =
      { state := (s.read_sensors sp r).state,
        trace := [⟨[], (s.read_sensors sp r).events, []⟩],
        exit := (s.read_sensors sp r).exit } := by
  cases hc : (s.read_sensors sp r).exit with
  | none => exact absurd hc hx
  | some code => simp [Replay.setup, h, hc]

/-- The pass of the loop of `setup` that commits the home location: a `GPS` message
with a 3D fix while `done_baro_init` is set. -/
theorem setup_cons_commit (sp : String → Nat → Bool) (s : Replay) (now : Nat) (r : LogRecord)
    (rest : List LogRecord) (h : s.done_home_init = false)
    (hx : (s.read_sensors sp r).exit = none)
    (h1 : r.type = "GPS") (h2 : GPS_OK_FIX_3D ≤ r.gps_status) (h3 : s.done_baro_init = true) :
    Replay.setup sp s now (r :: rest) =
      { state := (Replay.loop sp { (s.read_sensors sp r).state with done_home_init := true }
          r.millis rest).state,
        trace := ⟨[], (s.read_sensors sp r).events, [Event.set_home]⟩ ::
          (Replay.loop sp { (s.read_sensors sp r).state with done_home_init := true }
            r.millis rest).trace,
        exit := (Replay.loop sp { (s.read_sensors sp r).state with done_home_init := true }
          r.millis rest).exit } := by
  obtain ⟨_, _, _, _, f5⟩ := read_sensors_flags sp s r hx
  obtain ⟨_, _, _, _, d, _⟩ := read_sensors_frame sp s r
  have hb : (s.read_sensors sp r).state.done_baro_init = true := by
    rw [f5, h3]
    rfl
  have hd : (s.read_sensors sp r).state.done_home_init = false := by rw [d, h]
  have hc : (streq r.type "GPS" && decide (GPS_OK_FIX_3D ≤ r.gps_status) &&
      (s.read_sensors sp r).state.done_baro_init &&
      !(s.read_sensors sp r).state.done_home_init) = true := by
    rw [hb, hd]
    simp [h1, h2]
  simp only [Replay.setup, h, hx, Bool.false_eq_true, if_false]
  simp only [hc, if_true]
  rw [setup_of_done sp _ _ _ rfl]

/-- The pass of the loop of `setup` that does not commit the home location. -/
theorem setup_cons_skip (sp : String → Nat → Bool) (s : Replay) (now : Nat) (r : LogRecord)
    (rest : List LogRecord) (h : s.done_home_init = false)
    (hx : (s.read_sensors sp r).exit = none)
    (hn : ¬ (r.type = "GPS" ∧ GPS_OK_FIX_3D ≤ r.gps_status ∧ s.done_baro_init = true)) :
    Replay.setup sp s now (r :: rest) =
      { state := (Replay.setup sp (s.read_sensors sp r).state r.millis rest).state,
        trace := ⟨[], (s.read_sensors sp r).events, []⟩ ::
          (Replay.setup sp (s.read_sensors sp r).state r.millis rest).trace,
        exit := (Replay.setup sp (s.read_sensors sp r).state r.millis rest).exit } := by
  obtain ⟨_, _, _, _, f5⟩ := read_sensors_flags sp s r hx
  have hc : (streq r.type "GPS" && decide (GPS_OK_FIX_3D ≤ r.gps_status) &&
      (s.read_sensors sp r).state.done_baro_init &&
      !(s.read_sensors sp r).state.done_home_init) = false := by
    by_cases h1 : r.type = "GPS"
    · by_cases h2 : GPS_OK_FIX_3D ≤ r.gps_status
      · have h3 : s.done_baro_init = false := by
          cases hb : s.done_baro_init with
          | false => rfl
          | true => exact absurd ⟨h1, h2, hb⟩ hn
        rw [f5, h3, h1]
        simp
      · simp [h2]
    · simp [h1]
  simp only [Replay.setup, h, hx, Bool.false_eq_true, if_false]
  simp only [hc, Bool.false_eq_true, if_false]

/-- Whether `done_baro_init` is set before message `i + 1` of `r :: rest`, seen from
`rest`. -/
theorem baro_seen_shift (b : Bool) (r : LogRecord) (rest : List LogRecord) (i : Nat) :
    (b = true ∨ ∃ k rk, k < i + 1 ∧ (r :: rest)[k]? = some rk ∧ rk.type = "BARO") ↔
      ((b || streq r.type "BARO") = true ∨
        ∃ k rk, k < i ∧ rest[k]? = some rk ∧ rk.type = "BARO") := by
  constructor
  · rintro (h | ⟨k, rk, hk, hrk, ht⟩)
    · exact Or.inl (by simp [h])
    · cases k with
      | zero =>
        have : r = rk := by simpa using hrk
        subst this
        exact Or.inl (by simp [ht])
      | succ k => exact Or.inr ⟨k, rk, by omega, by simpa using hrk, ht⟩
  · rintro (h | ⟨k, rk, hk, hrk, ht⟩)
    · simp only [Bool.or_eq_true, streq_iff] at h
      rcases h with h | h
      · exact Or.inl h
      · exact Or.inr ⟨0, r, by omega, by simp, h⟩
    · exact Or.inr ⟨k + 1, rk, by omega, by simpa using hrk, ht⟩

/-- The home location is committed only at a `GPS` message with a 3D fix that comes
with `done_baro_init` set, and only at the first such message. -/
theorem setup_home_only_at_first_fix (sp : String → Nat → Bool) (rs : List LogRecord) :
    ∀ (s : Replay) (now : Nat), s.done_home_init = false →
      ∀ (i : Nat) (it : Iteration), (Replay.setup sp s now rs).trace[i]? = some it →
        Event.set_home ∈ it.before ++ it.sensors ++ it.after →
        (∃ ri, rs[i]? = some ri ∧ ri.type = "GPS" ∧ GPS_OK_FIX_3D ≤ ri.gps_status ∧
          (s.done_baro_init = true ∨
            ∃ k rk, k < i ∧ rs[k]? = some rk ∧ rk.type = "BARO")) ∧
        (∀ j rj, j < i → rs[j]? = some rj →
          ¬ (rj.type = "GPS" ∧ GPS_OK_FIX_3D ≤ rj.gps_status ∧
            (s.done_baro_init = true ∨
              ∃ k rk, k < j ∧ rs[k]? = some rk ∧ rk.type = "BARO"))) := by
  induction rs with
  | nil =>
    intro s now _ i it hit hm
    exact absurd hm (loop_no_set_home sp [] s now it (List.getElem?_mem hit))
  | cons r rest ih =>
    intro s now hs i it hit hm
    by_cases hx : (s.read_sensors sp r).exit = none
    · obtain ⟨_, _, _, _, f5⟩ := read_sensors_flags sp s r hx
      obtain ⟨_, _, _, _, d, _⟩ := read_sensors_frame sp s r
      by_cases hq : r.type = "GPS" ∧ GPS_OK_FIX_3D ≤ r.gps_status ∧ s.done_baro_init = true
      · rw [setup_cons_commit sp s now r rest hs hx hq.1 hq.2.1 hq.2.2] at hit
        cases i with
        | zero =>
          refine ⟨⟨r, by simp, hq.1, hq.2.1, Or.inl hq.2.2⟩, ?_⟩
          intro j rj hj
          omega
        | succ i =>
          simp only [List.getElem?_cons_succ] at hit
          exact absurd hm (loop_no_set_home sp rest _ _ it (List.getElem?_mem hit))
      · rw [setup_cons_skip sp s now r rest hs hx hq] at hit
        cases i with
        | zero =>
          simp only [List.getElem?_cons_zero, Option.some.injEq] at hit
          subst hit
          simp only [List.nil_append, List.append_nil] at hm
          exact absurd hm (read_sensors_no_set_home sp s r)
        | succ i =>
          simp only [List.getElem?_cons_succ] at hit
          obtain ⟨⟨ri, a1, a2, a3, a4⟩, a5⟩ :=
            ih (s.read_sensors sp r).state r.millis (by rw [d, hs]) i it hit hm
          rw [f5] at a4 a5
          refine ⟨⟨ri, by simpa using a1, a2, a3, (baro_seen_shift _ r rest i).2 a4⟩, ?_⟩
          intro j rj hj hrj
          cases j with
          | zero =>
            have : r = rj := by simpa using hrj
            subst this
            rintro ⟨b1, b2, b3 | ⟨k, _, hk, _⟩⟩
            · exact hq ⟨b1, b2, b3⟩
            · omega
          | succ j =>
            rintro ⟨b1, b2, b3⟩
            exact a5 j rj (by omega) (by simpa using hrj)
              ⟨b1, b2, (baro_seen_shift _ r rest j).1 b3⟩
    · rw [setup_cons_exit sp s now r rest hs hx] at hit
      cases i with
      | zero =>
        simp only [List.getElem?_cons_zero, Option.some.injEq] at hit
        subst hit
        simp only [List.nil_append, List.append_nil] at hm
        exact absurd hm (read_sensors_no_set_home sp s r)
      | succ i => simp at hit

/-- The home location is committed at most once. -/
theorem setup_home_at_most_once (sp : String → Nat → Bool) (rs : List LogRecord) :
    ∀ (s : Replay) (now : Nat),
      ((Replay.setup sp s now rs).trace.map
        (fun it => (it.before ++ it.sensors ++ it.after).count Event.set_home)).sum ≤ 1 := by
  have hloop : ∀ (rs : List LogRecord) (s : Replay) (now : Nat),
      ((Replay.loop sp s now rs).trace.map
        (fun it => (it.before ++ it.sensors ++ it.after).count Event.set_home)).sum = 0 := by
    intro rs s now
    apply List.sum_eq_zero
    intro n hn
    obtain ⟨it, hit, rfl⟩ := List.mem_map.1 hn
    exact List.count_eq_zero.2 (loop_no_set_home sp rs s now it hit)
  induction rs with
  | nil =>
    intro s now
    have : Replay.setup sp s now [] = Replay.loop sp s now [] := by simp [Replay.setup]
    rw [this, hloop]
    omega
  | cons r rest ih =>
    intro s now
    cases hs : s.done_home_init with
    | true =>
      rw [setup_of_done sp s now _ hs, hloop]
      omega
    | false =>
      have hz : (s.read_sensors sp r).events.count Event.set_home = 0 :=
        List.count_eq_zero.2 (read_sensors_no_set_home sp s r)
      by_cases hx : (s.read_sensors sp r).exit = none
      · by_cases hq : r.type = "GPS" ∧ GPS_OK_FIX_3D ≤ r.gps_status ∧ s.done_baro_init = true
        · rw [setup_cons_commit sp s now r rest hs hx hq.1 hq.2.1 hq.2.2]
          have hl := hloop rest { (s.read_sensors sp r).state with done_home_init := true }
            r.millis
          simp only [List.map_cons, List.sum_cons]
          rw [hl]
          simp [hz]
        · rw [setup_cons_skip sp s now r rest hs hx hq]
          have := ih (s.read_sensors sp r).state r.millis
          simp only [List.map_cons, List.sum_cons, List.nil_append, List.append_nil, hz]
          omega
      · rw [setup_cons_exit sp s now r rest hs hx]
        simp [hz]

/-- With the overrides done or all accepted, the first `GPS` message with a 3D fix
that comes with `done_baro_init` set does commit the home location. -/
theorem setup_home_at_first_fix (sp : String → Nat → Bool) (rs : List LogRecord) :
    ∀ (s : Replay) (now : Nat), s.done_home_init = false →
      (s.done_parameters = true ∨ ∀ p ∈ s.user_parameters, sp p.name p.value = true) →
      ∀ (i : Nat) (ri : LogRecord), rs[i]? = some ri →
        ri.type = "GPS" → GPS_OK_FIX_3D ≤ ri.gps_status →
        (s.done_baro_init = true ∨ ∃ k rk, k < i ∧ rs[k]? = some rk ∧ rk.type = "BARO") →
        (∀ j rj, j < i → rs[j]? = some rj →
          ¬ (rj.type = "GPS" ∧ GPS_OK_FIX_3D ≤ rj.gps_status ∧
            (s.done_baro_init = true ∨
              ∃ k rk, k < j ∧ rs[k]? = some rk ∧ rk.type = "BARO"))) →
        ∃ it, (Replay.setup sp s now rs).trace[i]? = some it ∧
          it.after = [Event.set_home] := by
  induction rs with
  | nil =>
    intro s now _ _ i ri hi
    simp at hi
  | cons r rest ih =>
    intro s now hs hok i ri hi h1 h2 h3 hfirst
    have hx : (s.read_sensors sp r).exit = none := read_sensors_returns sp s r (by tauto)
    obtain ⟨_, _, _, _, f5⟩ := read_sensors_flags sp s r hx
    obtain ⟨_, u, _, _, d, dp⟩ := read_sensors_frame sp s r
    cases i with
    | zero =>
      have : r = ri := by simpa using hi
      subst this
      have hb : s.done_baro_init = true := by
        rcases h3 with h3 | ⟨k, _, hk, _⟩
        · exact h3
        · omega
      rw [setup_cons_commit sp s now r rest hs hx h1 h2 hb]
      exact ⟨⟨[], (s.read_sensors sp r).events, [Event.set_home]⟩, by simp, rfl⟩
    | succ i =>
      have hq : ¬ (r.type = "GPS" ∧ GPS_OK_FIX_3D ≤ r.gps_status ∧ s.done_baro_init = true) := by
        rintro ⟨b1, b2, b3⟩
        exact hfirst 0 r (by omega) (by simp) ⟨b1, b2, Or.inl b3⟩
      rw [setup_cons_skip sp s now r rest hs hx hq]
      simp only [List.getElem?_cons_succ]
      have hi2 : rest[i]? = some ri := by simpa using hi
      have hok2 : (s.read_sensors sp r).state.done_parameters = true ∨
          ∀ p ∈ (s.read_sensors sp r).state.user_parameters, sp p.name p.value = true := by
        rcases hok with h | h
        · left
          rw [dp, h]
          rfl
        · right
          rw [u]
          exact h
      have h3b : (s.read_sensors sp r).state.done_baro_init = true ∨
          ∃ k rk, k < i ∧ rest[k]? = some rk ∧ rk.type = "BARO" := by
        rw [f5]
        exact (baro_seen_shift _ r rest i).1 h3
      refine ih (s.read_sensors sp r).state r.millis (by rw [d, hs]) hok2 i ri hi2 h1 h2 h3b ?_
      intro j rj hj hrj
      rw [f5]
      rintro ⟨b1, b2, b3⟩
      exact hfirst (j + 1) rj (by omega) (by simpa using hrj)
        ⟨b1, b2, (baro_seen_shift _ r rest j).2 b3⟩

/-- C8. Home initialisation happens at most once: over the whole replay of any
message sequence (the loop of `setup`, then `loop`), with any overrides, the home
location is committed at most once; it is committed only at a `GPS` message that
reports at least a 3D fix and comes after a `BARO` message, and only at the first
such message; and when every override is accepted (so that no call of
`read_sensors` ends the process) it is committed at that message, right after the
call of `read_sensors` for it. -/
theorem home_initialised_once (sp : String → Nat → Bool) (use_imt : Bool) (arm_time_ms : Int)
    (ps : List UserParameter) (now : Nat) (rs : List LogRecord) :
    ((Replay.replay sp use_imt arm_time_ms ps now rs).trace.map
      (fun it => (it.before ++ it.sensors ++ it.after).count Event.set_home)).sum ≤ 1 ∧
    (∀ (i : Nat) (it : Iteration),
      (Replay.replay sp use_imt arm_time_ms ps now rs).trace[i]? = some it →
      Event.set_home ∈ it.before ++ it.sensors ++ it.after →
      (∃ ri, rs[i]? = some ri ∧ ri.type = "GPS" ∧ GPS_OK_FIX_3D ≤ ri.gps_status ∧
        ∃ k rk, k < i ∧ rs[k]? = some rk ∧ rk.type = "BARO") ∧
      (∀ j rj, j < i → rs[j]? = some rj →
        ¬ (rj.type = "GPS" ∧ GPS_OK_FIX_3D ≤ rj.gps_status ∧
          ∃ k rk, k < j ∧ rs[k]? = some rk ∧ rk.type = "BARO"))) ∧
    ((∀ p ∈ ps, sp p.name p.value = true) →
      ∀ (i : Nat) (ri : LogRecord), rs[i]? = some ri →
        ri.type = "GPS" → GPS_OK_FIX_3D ≤ ri.gps_status →
        (∃ k rk, k < i ∧ rs[k]? = some rk ∧ rk.type = "BARO") →
        (∀ j rj, j < i → rs[j]? = some rj →
          ¬ (rj.type = "GPS" ∧ GPS_OK_FIX_3D ≤ rj.gps_status ∧
            ∃ k rk, k < j ∧ rs[k]? = some rk ∧ rk.type = "BARO")) →
        ∃ it, (Replay.replay sp use_imt arm_time_ms ps now rs).trace[i]? = some it ∧
          it.after = [Event.set_home]) := by
  unfold Replay.replay
  refine ⟨setup_home_at_most_once sp rs _ now, ?_, ?_⟩
  · intro i it hit hm
    have h := setup_home_only_at_first_fix sp rs (Replay.init use_imt arm_time_ms ps) now rfl
      i it hit hm
    simpa [Replay.init] using h
  · intro hacc i ri hi h1 h2 h3 hfirst
    exact setup_home_at_first_fix sp rs (Replay.init use_imt arm_time_ms ps) now rfl
      (Or.inr hacc) i ri hi h1 h2 (Or.inr h3) (by simpa [Replay.init] using hfirst)

/-- The replay of `BARO` followed by five `GPS` messages with a 3D fix commits the
home location once, at the first of them. -/
theorem home_initialised_once_witness :
    ((Replay.replay (fun _ _ => true) true (-1) [] 0
        [{ type := "BARO" }, { type := "GPS", gps_status := 3 },
          { type := "GPS", gps_status := 3 }, { type := "GPS", gps_status := 3 },
          { type := "GPS", gps_status := 3 }, { type := "GPS", gps_status := 3 }]).trace.map
      (fun it => (it.before ++ it.sensors ++ it.after).count Event.set_home)).sum = 1 ∧
    ∃ it, (Replay.replay (fun _ _ => true) true (-1) [] 0
        [{ type := "BARO" }, { type := "GPS", gps_status := 3 },
          { type := "GPS", gps_status := 3 }, { type := "GPS", gps_status := 3 },
          { type := "GPS", gps_status := 3 }, { type := "GPS", gps_status := 3 }]).trace[1]? =
        some it ∧ it.after = [Event.set_home] :=
  ⟨by decide,
    (home_initialised_once (fun _ _ => true) true (-1) [] 0
      [{ type := "BARO" }, { type := "GPS", gps_status := 3 },
        { type := "GPS", gps_status := 3 }, { type := "GPS", gps_status := 3 },
        { type := "GPS", gps_status := 3 }, { type := "GPS", gps_status := 3 }]).2.2
      (by simp) 1 { type := "GPS", gps_status := 3 } rfl rfl (by decide)
      ⟨0, { type := "BARO" }, by decide, rfl, rfl⟩
      (by
        intro j rj hj hrj
        have hj0 : j = 0 := by omega
        subst hj0
        simp at hrj
        subst hrj
        simp)⟩

/-! ## The replay and its parts -/

/-- The reports of the gate depend on `arm_time_ms` and the armed flag only. -/
theorem arm_gate_congr (s1 s2 : Replay) (now : Nat)
    (h1 : s1.arm_time_ms = s2.arm_time_ms) (h2 : s1.soft_armed = s2.soft_armed) :
    (s1.arm_gate now).2 = (s2.arm_gate now).2 ∧
      (s1.arm_gate now).1.arm_time_ms = (s2.arm_gate now).1.arm_time_ms ∧
      (s1.arm_gate now).1.soft_armed = (s2.arm_gate now).1.soft_armed := by
  unfold Replay.arm_gate
  rw [h1, h2]
  split_ifs <;> simp [h1, h2]

theorem arm_gate_seq_congr (cs : List Nat) :
    ∀ (s1 s2 : Replay), s1.arm_time_ms = s2.arm_time_ms → s1.soft_armed = s2.soft_armed →
      (s1.arm_gate_seq cs).map Prod.snd = (s2.arm_gate_seq cs).map Prod.snd := by
  induction cs with
  | nil =>
    intro s1 s2 _ _
    rfl
  | cons c rest ih =>
    intro s1 s2 h1 h2
    obtain ⟨e1, e2, e3⟩ := arm_gate_congr s1 s2 c h1 h2
    simp only [Replay.arm_gate_seq, List.map_cons, e1]
    rw [ih _ _ e2 e3]

theorem arm_gate_frame (s : Replay) (now : Nat) :
    (s.arm_gate now).1 = { s with soft_armed := (s.arm_gate now).1.soft_armed } := by
  unfold Replay.arm_gate
  split_ifs <;> rfl

/-- In `loop`, once the overrides are done, the actions taken before each call of
`read_sensors` are those of the gate applied to the clock readings in turn: the
reading at the head of the first pass, then the reading left by each message. -/
theorem loop_before_eq_arm_gate_seq (sp : String → Nat → Bool) (rs : List LogRecord) :
    ∀ (s : Replay) (now : Nat), s.done_parameters = true →
      (Replay.loop sp s now rs).trace.map Iteration.before =
        (s.arm_gate_seq (now :: rs.map (fun r => r.millis))).map Prod.snd := by
  induction rs with
  | nil =>
    intro s now _
    simp [Replay.loop, Replay.arm_gate_seq]
  | cons r rest ih =>
    intro s now hd
    have hg := arm_gate_frame s now
    have hd2 : (s.arm_gate now).1.done_parameters = true := by rw [hg]; exact hd
    have hx : ((s.arm_gate now).1.read_sensors sp r).exit = none :=
      read_sensors_returns sp _ r (Or.inl hd2)
    obtain ⟨_, _, a, b, _, d⟩ := read_sensors_frame sp (s.arm_gate now).1 r
    have hd3 : ((s.arm_gate now).1.read_sensors sp r).state.done_parameters = true := by
      rw [d, hd2]
      rfl
    simp only [Replay.loop, hx, List.map_cons]
    rw [ih _ _ hd3]
    simp only [Replay.arm_gate_seq, List.map_cons]
    obtain ⟨e1, e2, e3⟩ := arm_gate_congr ((s.arm_gate now).1.read_sensors sp r).state
      (s.arm_gate now).1 r.millis a b
    rw [e1, arm_gate_seq_congr _ _ _ e2 e3]

/-- The dispatcher reads neither `done_home_init` nor the armed flag. -/
theorem read_sensors_home_armed (sp : String → Nat → Bool) (s : Replay) (b a : Bool)
    (r : LogRecord) :
    ({ s with done_home_init := b, soft_armed := a } : Replay).read_sensors sp r =
      { state := { (s.read_sensors sp r).state with done_home_init := b, soft_armed := a },
        events := (s.read_sensors sp r).events,
        exit := (s.read_sensors sp r).exit } := by
  have hstage : ({ s with done_home_init := b, soft_armed := a } : Replay).stage_parameters sp
      r.type = ({ (s.stage_parameters sp r.type).1 with done_home_init := b, soft_armed := a },
        (s.stage_parameters sp r.type).2.1, (s.stage_parameters sp r.type).2.2) := by
    unfold Replay.stage_parameters Replay.set_user_parameters
    split_ifs <;> rfl
  have hside : ∀ x : Replay,
      ({ x with done_home_init := b, soft_armed := a } : Replay).side_updates r =
        ({ (x.side_updates r).1 with done_home_init := b, soft_armed := a },
          (x.side_updates r).2) := by
    intro x
    unfold Replay.side_updates
    split_ifs <;> rfl
  have hframe : ∀ x : Replay,
      ({ x with done_home_init := b, soft_armed := a } : Replay).frame_sync r.type =
        ({ (x.frame_sync r.type).1 with done_home_init := b, soft_armed := a },
          (x.frame_sync r.type).2) := by
    intro x
    unfold Replay.frame_sync
    split_ifs <;> rfl
  have hupd : ∀ x : Replay,
      ({ x with done_home_init := b, soft_armed := a } : Replay).update_estimator r =
        ({ (x.update_estimator r).1 with done_home_init := b, soft_armed := a },
          (x.update_estimator r).2) := by
    intro x
    unfold Replay.update_estimator
    split_ifs <;> rfl
  have hnote : ∀ x : Replay,
      ({ x with done_home_init := b, soft_armed := a } : Replay).note_formats r.type =
        { x.note_formats r.type with done_home_init := b, soft_armed := a } := by
    intro x
    rfl
  have hrun : ∀ x : Replay,
      ({ x with done_home_init := b, soft_armed := a } : Replay).run_ahrs r.type =
        x.run_ahrs r.type := by
    intro x
    rfl
  unfold Replay.read_sensors
  rw [hstage]
  simp only
  cases hc : (s.stage_parameters sp r.type).2.2 with
  | some code => rfl
  | none =>
    simp only [hnote, hside, hframe, hrun, hupd]
    split_ifs <;> rfl

theorem arm_gate_home_armed (s : Replay) (b a : Bool) (now : Nat) :
    (({ s with done_home_init := b, soft_armed := a } : Replay).arm_gate now).1 =
      { s with done_home_init := b,
               soft_armed := (({ s with done_home_init := b, soft_armed := a } :
                 Replay).arm_gate now).1.soft_armed } := by
  unfold Replay.arm_gate
  split_ifs <;> rfl

/-- In `loop`, the actions of the call of `read_sensors` for each message are the
entries of the trace of `read_sensors_seq`. -/
theorem loop_sensors_eq_seq (sp : String → Nat → Bool) (rs : List LogRecord) :
    ∀ (s : Replay) (b a : Bool) (now i : Nat), i < rs.length →
      ((Replay.loop sp { s with done_home_init := b, soft_armed := a } now rs).trace[i]?).map
          Iteration.sensors =
        (Replay.read_sensors_seq sp s rs).trace[i]? := by
  induction rs with
  | nil =>
    intro s b a now i hi
    simp at hi
  | cons r rest ih =>
    intro s b a now i hi
    have hg := arm_gate_home_armed s b a now
    have hstep := read_sensors_home_armed sp s b
      (({ s with done_home_init := b, soft_armed := a } : Replay).arm_gate now).1.soft_armed r
    rw [← hg] at hstep
    by_cases hx : (s.read_sensors sp r).exit = none
    · have hx2 : ((({ s with done_home_init := b, soft_armed := a } : Replay).arm_gate
          now).1.read_sensors sp r).exit = none := by rw [hstep]; exact hx
      rw [read_sensors_seq_cons_ok sp s r rest hx]
      simp only [Replay.loop, hx2]
      cases i with
      | zero => simp [hstep]
      | succ i =>
        simp only [List.getElem?_cons_succ]
        rw [hstep]
        exact ih _ _ _ _ i (by simpa using hi)
    · rw [read_sensors_seq_cons_exit sp s r rest hx]
      cases hc : (s.read_sensors sp r).exit with
      | none => exact absurd hc hx
      | some code =>
        have hx2 : ((({ s with done_home_init := b, soft_armed := a } : Replay).arm_gate
            now).1.read_sensors sp r).exit = some code := by rw [hstep]; exact hc
        simp only [Replay.loop, hx2]
        cases i with
        | zero => simp [hstep]
        | succ i => simp

/-- In the loop of `setup` and the `loop` that follows it, the actions of the call
of `read_sensors` for each message are the entries of the trace of
`read_sensors_seq`. -/
theorem setup_sensors_eq_seq (sp : String → Nat → Bool) (rs : List LogRecord) :
    ∀ (s : Replay) (b a : Bool) (now i : Nat), i < rs.length →
      ((Replay.setup sp { s with done_home_init := b, soft_armed := a } now rs).trace[i]?).map
          Iteration.sensors =
        (Replay.read_sensors_seq sp s rs).trace[i]? := by
  induction rs with
  | nil =>
    intro s b a now i hi
    simp at hi
  | cons r rest ih =>
    intro s b a now i hi
    cases b with
    | true =>
      rw [setup_of_done sp _ now _ rfl]
      exact loop_sensors_eq_seq sp (r :: rest) s true a now i hi
    | false =>
      have hstep := read_sensors_home_armed sp s false a r
      by_cases hx : (s.read_sensors sp r).exit = none
      · have hx2 : (({ s with done_home_init := false, soft_armed := a } :
            Replay).read_sensors sp r).exit = none := by rw [hstep]; exact hx
        rw [read_sensors_seq_cons_ok sp s r rest hx]
        simp only [Replay.setup, Bool.false_eq_true, if_false, hx2]
        cases i with
        | zero => simp [hstep]
        | succ i =>
          simp only [List.getElem?_cons_succ]
          rw [hstep]
          split_ifs
          · exact ih (s.read_sensors sp r).state true a r.millis i (by simpa using hi)
          · exact ih (s.read_sensors sp r).state false a r.millis i (by simpa using hi)
      · rw [read_sensors_seq_cons_exit sp s r rest hx]
        cases hc : (s.read_sensors sp r).exit with
        | none => exact absurd hc hx
        | some code =>
          have hx2 : (({ s with done_home_init := false, soft_armed := a } :
              Replay).read_sensors sp r).exit = some code := by rw [hstep]; exact hc
          simp only [Replay.setup, Bool.false_eq_true, if_false, hx2]
          cases i with
          | zero => simp [hstep]
          | succ i => simp

/-- In the whole replay, what `read_sensors` does for the message at position `i` is
entry `i` of the trace of `read_sensors_seq` from the initial members: the
statements about `read_sensors_seq` are statements about the replay. -/
theorem replay_sensors_eq_seq (sp : String → Nat → Bool) (use_imt : Bool) (arm_time_ms : Int)
    (ps : List UserParameter) (now : Nat) (rs : List LogRecord) (i : Nat) (hi : i < rs.length) :
    ((Replay.replay sp use_imt arm_time_ms ps now rs).trace[i]?).map Iteration.sensors =
      (Replay.read_sensors_seq sp (Replay.init use_imt arm_time_ms ps) rs).trace[i]? :=
  setup_sensors_eq_seq sp rs (Replay.init use_imt arm_time_ms ps) false false now i hi

/-! ## Estimator updates during home initialisation -/

/-- With the three format flags clear at the start and no `FRAM`, `IMU2` or (with
`use_imt`) `IMT` message before it, an `IMU` message triggers an estimator
update. -/
theorem read_sensors_seq_imu_triggers (sp : String → Nat → Bool) (s : Replay)
    (rs : List LogRecord) (j : Nat) (rj : LogRecord)
    (hok : s.done_parameters = true ∨ ∀ p ∈ s.user_parameters, sp p.name p.value = true)
    (h1 : s.have_fram = false) (h2 : s.have_imt = false) (h3 : s.have_imu2 = false)
    (hj : rs[j]? = some rj) (hr : rj.type = "IMU")
    (hpre : ∀ i ri, i < j → rs[i]? = some ri →
      ri.type ≠ "FRAM" ∧ ri.type ≠ "IMU2" ∧ (s.use_imt = true → ri.type ≠ "IMT")) :
    ∃ ev, (Replay.read_sensors_seq sp s rs).trace[j]? = some ev ∧ Event.ahrs_update ∈ ev := by
  obtain ⟨hx0, hok2, htr⟩ := read_sensors_seq_entry sp s rs hok j rj hj
  obtain ⟨g1, g2, _, g4, _⟩ := read_sensors_seq_flags sp (rs.take j) s hx0
  obtain ⟨u, _, _⟩ := read_sensors_seq_frame sp (rs.take j) s
  have hnofram : (rs.take j).any (fun r => streq r.type "FRAM") = false := by
    rw [any_take_eq_false_iff]
    intro i ri hi hri
    simpa using (hpre i ri hi hri).1
  have hnoimu2 : (rs.take j).any (fun r => streq r.type "IMU2") = false := by
    rw [any_take_eq_false_iff]
    intro i ri hi hri
    simpa using (hpre i ri hi hri).2.1
  have hnoimt : (s.use_imt && (rs.take j).any (fun r => streq r.type "IMT")) = false := by
    cases hu : s.use_imt with
    | false => rfl
    | true =>
      simp only [Bool.true_and]
      rw [any_take_eq_false_iff]
      intro i ri hi hri
      simpa using (hpre i ri hi hri).2.2 hu
  rw [h1, hnofram] at g4
  rw [h2, hnoimt] at g2
  rw [h3, hnoimu2] at g1
  have hx : ((Replay.read_sensors_seq sp s (rs.take j)).state.read_sensors sp rj).exit = none :=
    read_sensors_returns sp _ rj (by tauto)
  obtain ⟨_, f2, _, f4, _⟩ := read_sensors_flags sp _ rj hx
  have hpf : ((Replay.read_sensors_seq sp s (rs.take j)).state.read_sensors sp
      rj).state.have_fram = false := by
    rw [f4, g4, hr]
    simp
  have hpi : ((Replay.read_sensors_seq sp s (rs.take j)).state.read_sensors sp
      rj).state.have_imt = false := by
    rw [f2, g2, hr]
    simp
  refine ⟨_, htr, ?_⟩
  rw [read_sensors_legacy_rule sp _ rj hx hpf hpi]
  exact Or.inr ⟨hr, by simpa using g1⟩

/-- The claim C11 as stated fails: in the replay of `BARO`, `IMU`, `GPS` (3D fix),
with no overrides, the `IMU` message is handled in the loop of `setup` and
triggers an estimator update, and the home location is committed only afterwards,
at the `GPS` message. -/
theorem estimator_update_before_home :
    (Replay.replay (fun _ _ => true) true (-1) [] 0
        [{ type := "BARO" }, { type := "IMU" }, { type := "GPS", gps_status := 3 }]).trace =
      [⟨[], [Event.baro_update, Event.baro_update_calibration], []⟩,
        ⟨[], [Event.ahrs_update, Event.log_write], []⟩,
        ⟨[], [Event.gps_update, Event.estimate_wind], [Event.set_home]⟩,
        ⟨[], [], [Event.end_of_log]⟩] := by
  decide

/-- C11, amended. During home initialisation the messages go through the whole of
`read_sensors`, trigger decision included, exactly as in `loop`: for every message
sequence, what `read_sensors` does for each message of the replay (the loop of
`setup`, then `loop`) is what it does when called on the messages in turn; so an
estimator update is triggered whenever the trigger rule selects the message,
before the home location is established as well as after.  In particular, when
every override is accepted, an `IMU` message before which no `FRAM`, `IMU2` or
(with `use_imt`) `IMT` message has come triggers an estimator update, wherever it
stands relative to the home fix. -/
theorem setup_triggers_like_loop (sp : String → Nat → Bool) (use_imt : Bool) (arm_time_ms : Int)
    (ps : List UserParameter) (now : Nat) (rs : List LogRecord) :
    (∀ i, i < rs.length →
      ((Replay.replay sp use_imt arm_time_ms ps now rs).trace[i]?).map Iteration.sensors =
        (Replay.read_sensors_seq sp (Replay.init use_imt arm_time_ms ps) rs).trace[i]?) ∧
    ((∀ p ∈ ps, sp p.name p.value = true) →
      ∀ (j : Nat) (rj : LogRecord), rs[j]? = some rj → rj.type = "IMU" →
        (∀ i ri, i < j → rs[i]? = some ri →
          ri.type ≠ "FRAM" ∧ ri.type ≠ "IMU2" ∧ (use_imt = true → ri.type ≠ "IMT")) →
        ∃ it, (Replay.replay sp use_imt arm_time_ms ps now rs).trace[j]? = some it ∧
          Event.ahrs_update ∈ it.sensors) := by
  have hA : ∀ i, i < rs.length →
      ((Replay.replay sp use_imt arm_time_ms ps now rs).trace[i]?).map Iteration.sensors =
        (Replay.read_sensors_seq sp (Replay.init use_imt arm_time_ms ps) rs).trace[i]? :=
    fun i hi =>
      setup_sensors_eq_seq sp rs (Replay.init use_imt arm_time_ms ps) false false now i hi
  refine ⟨hA, ?_⟩
  intro hacc j rj hj hr hpre
  obtain ⟨hlt, _⟩ := List.getElem?_eq_some.1 hj
  obtain ⟨ev, hev, hmem⟩ := read_sensors_seq_imu_triggers sp
    (Replay.init use_imt arm_time_ms ps) rs j rj (Or.inr hacc) rfl rfl rfl hj hr hpre
  have hmap := hA j hlt
  rw [hev] at hmap
  obtain ⟨it, hit, hs⟩ := Option.map_eq_some'.1 hmap
  exact ⟨it, hit, by rw [hs]; exact hmem⟩

/-- In the replay of `BARO`, `IMU`, `GPS` (3D fix) the `IMU` message, at position 1
and before the home fix, triggers an estimator update. -/
theorem setup_triggers_like_loop_witness :
    ∃ it, (Replay.replay (fun _ _ => true) true (-1) [] 0
        [{ type := "BARO" }, { type := "IMU" }, { type := "GPS", gps_status := 3 }]).trace[1]? =
          some it ∧ Event.ahrs_update ∈ it.sensors :=
  (setup_triggers_like_loop (fun _ _ => true) true (-1) [] 0
    [{ type := "BARO" }, { type := "IMU" }, { type := "GPS", gps_status := 3 }]).2
    (by simp) 1 { type := "IMU" } rfl rfl (by
      intro i ri hi hri
      have hi0 : i = 0 := by omega
      subst hi0
      simp at hri
      subst hri
      simp)

/-! ## The rate windows and the exact rate -/

/-- The divisor and the computed rate when the truncated mean fits a 32-bit `int`. -/
theorem computed_rate_eq_ediv (samplesum : Nat) (h1 : 1 ≤ samplesum / 10)
    (h2 : samplesum / 10 < 2147483648) :
    mean_interval samplesum 10 = ((samplesum / 10 : Nat) : Int) ∧
      computed_rate samplesum 10 = (1000000 : Int) / ((samplesum / 10 : Nat) : Int) := by
  have hm : mean_interval samplesum 10 = ((samplesum / 10 : Nat) : Int) := by
    unfold mean_interval int_of_u64
    have hmod : samplesum / 10 % 4294967296 = samplesum / 10 := Nat.mod_eq_of_lt (by omega)
    simp only [hmod]
    rw [if_pos h2]
  refine ⟨hm, ?_⟩
  unfold computed_rate
  rw [hm]
  exact Int.tdiv_eq_ediv (by omega) (by omega)

/-- Integer bounds on the quotient `1000000 / m` as bounds on the exact quotient. -/
theorem rate_window_iff (m : Nat) (hm : 0 < m) (a b : Nat) :
    ((a : Int) ≤ (1000000 : Int) / (m : Int) ∧ (1000000 : Int) / (m : Int) < (b : Int)) ↔
      ((a : ℚ) ≤ (1000000 : ℚ) / (m : ℚ) ∧ (1000000 : ℚ) / (m : ℚ) < (b : ℚ)) := by
  have hmz : (0 : Int) < (m : Int) := by exact_mod_cast hm
  have hmq : (0 : ℚ) < (m : ℚ) := by exact_mod_cast hm
  rw [Int.le_ediv_iff_mul_le hmz, Int.ediv_lt_iff_lt_mul hmz, le_div_iff₀ hmq, div_lt_iff₀ hmq]
  constructor
  · rintro ⟨h1, h2⟩
    exact ⟨by exact_mod_cast h1, by exact_mod_cast h2⟩
  · rintro ⟨h1, h2⟩
    exact ⟨by exact_mod_cast h1, by exact_mod_cast h2⟩

/-- Which computed rates fall in which bucket. -/
theorem rate_bucket_iff (rate : Int) :
    (rate_bucket rate = Outcome.returned 50 ↔ 46 ≤ rate ∧ rate < 55) ∧
    (rate_bucket rate = Outcome.returned 100 ↔ 91 ≤ rate ∧ rate < 110) ∧
    (rate_bucket rate = Outcome.returned 200 ↔ 191 ≤ rate ∧ rate < 210) ∧
    (rate_bucket rate = Outcome.returned 400 ↔ 381 ≤ rate ∧ rate < 420) ∧
    (rate_bucket rate = Outcome.exited 1 ↔
      ¬ (46 ≤ rate ∧ rate < 55) ∧ ¬ (91 ≤ rate ∧ rate < 110) ∧
        ¬ (191 ≤ rate ∧ rate < 210) ∧ ¬ (381 ≤ rate ∧ rate < 420)) := by
  by_cases h50 : 46 ≤ rate ∧ rate ≤ 54
  · rw [rate_bucket_50 rate h50.1 h50.2]
    refine ⟨?_, ?_, ?_, ?_, ?_⟩ <;> simp <;> omega
  · by_cases h100 : 91 ≤ rate ∧ rate ≤ 109
    · rw [rate_bucket_100 rate h100.1 h100.2]
      refine ⟨?_, ?_, ?_, ?_, ?_⟩ <;> simp <;> omega
    · by_cases h200 : 191 ≤ rate ∧ rate ≤ 209
      · rw [rate_bucket_200 rate h200.1 h200.2]
        refine ⟨?_, ?_, ?_, ?_, ?_⟩ <;> simp <;> omega
      · by_cases h400 : 381 ≤ rate ∧ rate ≤ 419
        · rw [rate_bucket_400 rate h400.1 h400.2]
          refine ⟨?_, ?_, ?_, ?_, ?_⟩ <;> simp <;> omega
        · rw [rate_bucket_none rate h50 h100 h200 h400]
          refine ⟨?_, ?_, ?_, ?_, ?_⟩ <;> simp <;> omega

/-- Bounds on the exact rate `1000000 / (samplesum / 10)` as bounds on the sum. -/
theorem exact_rate_bounds (samplesum a b : Nat) (ha : 0 < a)
    (h : (a : ℚ) ≤ (1000000 : ℚ) / ((samplesum : ℚ) / 10) ∧
      (1000000 : ℚ) / ((samplesum : ℚ) / 10) ≤ (b : ℚ)) :
    0 < samplesum ∧ a * samplesum ≤ 10000000 ∧ 10000000 ≤ b * samplesum := by
  have hpos : 0 < samplesum := by
    rcases Nat.eq_zero_or_pos samplesum with h0 | h0
    · exfalso
      have h1 := h.1
      rw [h0] at h1
      have haq : (0 : ℚ) < (a : ℚ) := by exact_mod_cast ha
      simp at h1
      linarith
    · exact h0
  have hsq : (0 : ℚ) < (samplesum : ℚ) / 10 := by
    have : (0 : ℚ) < (samplesum : ℚ) := by exact_mod_cast hpos
    positivity
  obtain ⟨h1, h2⟩ := h
  rw [le_div_iff₀ hsq] at h1
  rw [div_le_iff₀ hsq] at h2
  have e1 : ((a * samplesum : Nat) : ℚ) ≤ ((10000000 : Nat) : ℚ) := by
    push_cast
    linarith
  have e2 : ((10000000 : Nat) : ℚ) ≤ ((b * samplesum : Nat) : ℚ) := by
    push_cast
    linarith
  exact ⟨hpos, by exact_mod_cast e1, by exact_mod_cast e2⟩

/-- Bounds on the computed rate from bounds on the truncated mean. -/
theorem computed_rate_bounds (samplesum : Nat) (a b : Nat) (h1 : 1 ≤ samplesum / 10)
    (h2 : samplesum / 10 < 2147483648) (ha : a * (samplesum / 10) ≤ 1000000)
    (hb : 1000000 < (b + 1) * (samplesum / 10)) :
    (a : Int) ≤ computed_rate samplesum 10 ∧ computed_rate samplesum 10 ≤ (b : Int) := by
  obtain ⟨_, hr⟩ := computed_rate_eq_ediv samplesum h1 h2
  have hmz : (0 : Int) < ((samplesum / 10 : Nat) : Int) := by exact_mod_cast h1
  rw [hr]
  constructor
  · rw [Int.le_ediv_iff_mul_le hmz]
    exact_mod_cast ha
  · have : (1000000 : Int) / ((samplesum / 10 : Nat) : Int) < (b : Int) + 1 := by
      rw [Int.ediv_lt_iff_lt_mul hmz]
      exact_mod_cast hb
    exact Int.lt_add_one_iff.1 this

/-- The claim C12 as stated fails: eleven IMU2 messages 22222 microseconds apart
give ten intervals with sum 222220, an exact rate of about 45.0005, within 5 of
50, and `find_update_rate` ends the process with exit code 1. -/
theorem exact_rate_near_45_fails :
    (find_update_rate_samples ⟨0⟩ 0 0 0 (imu2_log 22222 11)).1 = 10 ∧
      abs ((1000000 : ℚ) /
        (((find_update_rate_samples ⟨0⟩ 0 0 0 (imu2_log 22222 11)).2 : ℚ) / 10) - 50) < 5 ∧
      find_update_rate (some (imu2_log 22222 11)) ⟨0⟩ = Outcome.exited 1 := by
  have h : find_update_rate_samples ⟨0⟩ 0 0 0 (imu2_log 22222 11) = (10, 222220) := by decide
  refine ⟨by rw [h], ?_, by decide⟩
  rw [h, abs_lt]
  norm_num

/-- C12, amended. The rate windows are decided on the truncated quantities.  For
every ten collected intervals with sum `S`: when the mean truncated to whole
microseconds, `S / 10`, is at least 1 and fits an `int`, and `rate` is the exact
quotient of 1000000 by that truncated mean, `find_update_rate` returns 50 exactly
when `46 ≤ rate < 55`, 100 exactly when `91 ≤ rate < 110`, 200 exactly when
`191 ≤ rate < 210`, 400 exactly when `381 ≤ rate < 420`, and ends the process with
exit code 1 exactly when the rate is in none of these; and with the exact mean
`S / 10` and the exact rate, it returns 50 whenever `46 ≤ rate ≤ 54`, 100 whenever
`91 ≤ rate ≤ 109`, 200 whenever `191 ≤ rate ≤ 209`, 400 whenever
`381 ≤ rate ≤ 419`. -/
theorem truncated_rate_windows (reader : IMU2Counter) (msgs : List LogRecord)
    (hcount : (find_update_rate_samples reader 0 0 0 msgs).1 = 10) :
    (1 ≤ (find_update_rate_samples reader 0 0 0 msgs).2 / 10 →
      (find_update_rate_samples reader 0 0 0 msgs).2 / 10 < 2147483648 →
      (find_update_rate (some msgs) reader = Outcome.returned 50 ↔
        (46 : ℚ) ≤ (1000000 : ℚ) /
            (((find_update_rate_samples reader 0 0 0 msgs).2 / 10 : Nat) : ℚ) ∧
          (1000000 : ℚ) /
            (((find_update_rate_samples reader 0 0 0 msgs).2 / 10 : Nat) : ℚ) < 55) ∧
      (find_update_rate (some msgs) reader = Outcome.returned 100 ↔
        (91 : ℚ) ≤ (1000000 : ℚ) /
            (((find_update_rate_samples reader 0 0 0 msgs).2 / 10 : Nat) : ℚ) ∧
          (1000000 : ℚ) /
            (((find_update_rate_samples reader 0 0 0 msgs).2 / 10 : Nat) : ℚ) < 110) ∧
      (find_update_rate (some msgs) reader = Outcome.returned 200 ↔
        (191 : ℚ) ≤ (1000000 : ℚ) /
            (((find_update_rate_samples reader 0 0 0 msgs).2 / 10 : Nat) : ℚ) ∧
          (1000000 : ℚ) /
            (((find_update_rate_samples reader 0 0 0 msgs).2 / 10 : Nat) : ℚ) < 210) ∧
      (find_update_rate (some msgs) reader = Outcome.returned 400 ↔
        (381 : ℚ) ≤ (1000000 : ℚ) /
            (((find_update_rate_samples reader 0 0 0 msgs).2 / 10 : Nat) : ℚ) ∧
          (1000000 : ℚ) /
            (((find_update_rate_samples reader 0 0 0 msgs).2 / 10 : Nat) : ℚ) < 420) ∧
      (find_update_rate (some msgs) reader = Outcome.exited 1 ↔
        ¬ ((46 : ℚ) ≤ (1000000 : ℚ) /
            (((find_update_rate_samples reader 0 0 0 msgs).2 / 10 : Nat) : ℚ) ∧
          (1000000 : ℚ) /
            (((find_update_rate_samples reader 0 0 0 msgs).2 / 10 : Nat) : ℚ) < 55) ∧
        ¬ ((91 : ℚ) ≤ (1000000 : ℚ) /
            (((find_update_rate_samples reader 0 0 0 msgs).2 / 10 : Nat) : ℚ) ∧
          (1000000 : ℚ) /
            (((find_update_rate_samples reader 0 0 0 msgs).2 / 10 : Nat) : ℚ) < 110) ∧
        ¬ ((191 : ℚ) ≤ (1000000 : ℚ) /
            (((find_update_rate_samples reader 0 0 0 msgs).2 / 10 : Nat) : ℚ) ∧
          (1000000 : ℚ) /
            (((find_update_rate_samples reader 0 0 0 msgs).2 / 10 : Nat) : ℚ) < 210) ∧
        ¬ ((381 : ℚ) ≤ (1000000 : ℚ) /
            (((find_update_rate_samples reader 0 0 0 msgs).2 / 10 : Nat) : ℚ) ∧
          (1000000 : ℚ) /
            (((find_update_rate_samples reader 0 0 0 msgs).2 / 10 : Nat) : ℚ) < 420))) ∧
    ((46 : ℚ) ≤ (1000000 : ℚ) / (((find_update_rate_samples reader 0 0 0 msgs).2 : ℚ) / 10) ∧
        (1000000 : ℚ) / (((find_update_rate_samples reader 0 0 0 msgs).2 : ℚ) / 10) ≤ 54 →
      find_update_rate (some msgs) reader = Outcome.returned 50) ∧
    ((91 : ℚ) ≤ (1000000 : ℚ) / (((find_update_rate_samples reader 0 0 0 msgs).2 : ℚ) / 10) ∧
        (1000000 : ℚ) / (((find_update_rate_samples reader 0 0 0 msgs).2 : ℚ) / 10) ≤ 109 →
      find_update_rate (some msgs) reader = Outcome.returned 100) ∧
    ((191 : ℚ) ≤ (1000000 : ℚ) / (((find_update_rate_samples reader 0 0 0 msgs).2 : ℚ) / 10) ∧
        (1000000 : ℚ) / (((find_update_rate_samples reader 0 0 0 msgs).2 : ℚ) / 10) ≤ 209 →
      find_update_rate (some msgs) reader = Outcome.returned 200) ∧
    ((381 : ℚ) ≤ (1000000 : ℚ) / (((find_update_rate_samples reader 0 0 0 msgs).2 : ℚ) / 10) ∧
        (1000000 : ℚ) / (((find_update_rate_samples reader 0 0 0 msgs).2 : ℚ) / 10) ≤ 419 →
      find_update_rate (some msgs) reader = Outcome.returned 400) := by
  generalize hS : (find_update_rate_samples reader 0 0 0 msgs).2 = S
  have hbucket : 1 ≤ S / 10 → S / 10 < 2147483648 →
      find_update_rate (some msgs) reader = rate_bucket (computed_rate S 10) := by
    intro h1 h2
    obtain ⟨hm, _⟩ := computed_rate_eq_ediv S h1 h2
    have h := find_update_rate_of_ten reader msgs (by omega) (by
      rw [hcount, hS, hm]
      have : (0 : Int) < ((S / 10 : Nat) : Int) := by exact_mod_cast h1
      omega)
    rw [hcount, hS] at h
    exact h
  refine ⟨?_, ?_, ?_, ?_, ?_⟩
  · intro h1 h2
    obtain ⟨_, hr⟩ := computed_rate_eq_ediv S h1 h2
    obtain ⟨b1, b2, b3, b4, b5⟩ := rate_bucket_iff (computed_rate S 10)
    have w50 := rate_window_iff (S / 10) h1 46 55
    have w100 := rate_window_iff (S / 10) h1 91 110
    have w200 := rate_window_iff (S / 10) h1 191 210
    have w400 := rate_window_iff (S / 10) h1 381 420
    simp only [Nat.cast_ofNat] at w50 w100 w200 w400
    rw [hbucket h1 h2, b1, b2, b3, b4, b5, hr, w50, w100, w200, w400]
    exact ⟨Iff.rfl, Iff.rfl, Iff.rfl, Iff.rfl, Iff.rfl⟩
  · intro h
    obtain ⟨_, e1, e2⟩ := exact_rate_bounds S 46 54 (by omega) (by simpa using h)
    have h1 : 1 ≤ S / 10 := by omega
    have h2 : S / 10 < 2147483648 := by omega
    obtain ⟨c1, c2⟩ := computed_rate_bounds S 46 54 h1 h2 (by omega) (by omega)
    rw [hbucket h1 h2]
    exact rate_bucket_50 _ (by simpa using c1) (by simpa using c2)
  · intro h
    obtain ⟨_, e1, e2⟩ := exact_rate_bounds S 91 109 (by omega) (by simpa using h)
    have h1 : 1 ≤ S / 10 := by omega
    have h2 : S / 10 < 2147483648 := by omega
    obtain ⟨c1, c2⟩ := computed_rate_bounds S 91 109 h1 h2 (by omega) (by omega)
    rw [hbucket h1 h2]
    exact rate_bucket_100 _ (by simpa using c1) (by simpa using c2)
  · intro h
    obtain ⟨_, e1, e2⟩ := exact_rate_bounds S 191 209 (by omega) (by simpa using h)
    have h1 : 1 ≤ S / 10 := by omega
    have h2 : S / 10 < 2147483648 := by omega
    obtain ⟨c1, c2⟩ := computed_rate_bounds S 191 209 h1 h2 (by omega) (by omega)
    rw [hbucket h1 h2]
    exact rate_bucket_200 _ (by simpa using c1) (by simpa using c2)
  · intro h
    obtain ⟨_, e1, e2⟩ := exact_rate_bounds S 381 419 (by omega) (by simpa using h)
    have h1 : 1 ≤ S / 10 := by omega
    have h2 : S / 10 < 2147483648 := by omega
    obtain ⟨c1, c2⟩ := computed_rate_bounds S 381 419 h1 h2 (by omega) (by omega)
    rw [hbucket h1 h2]
    exact rate_bucket_400 _ (by simpa using c1) (by simpa using c2)

/-- Eleven IMU2 messages 20000 microseconds apart have the exact rate 50 and the
return value 50. -/
theorem truncated_rate_windows_witness :
    find_update_rate (some (imu2_log 20000 11)) ⟨0⟩ = Outcome.returned 50 :=
  (truncated_rate_windows ⟨0⟩ (imu2_log 20000 11) (by decide)).2.1 (by
    have h : find_update_rate_samples ⟨0⟩ 0 0 0 (imu2_log 20000 11) = (10, 200000) := by
      decide
    rw [h]
    norm_num)

/-! ## What the sampling loop counts -/

/-- One pass of the sampling loop on an IMU2 message with a `TimeUS` stamp. -/
theorem find_update_rate_samples_imu2 (reader : IMU2Counter) (samplecount prev samplesum t : Nat)
    (rest : List LogRecord) (ht : t < UINT64_MOD) (hc : samplecount < 10) :
    find_update_rate_samples reader samplecount prev samplesum
        ({ type := "IMU2", TimeUS := some t } :: rest) =
      if prev = 0 then
        find_update_rate_samples ⟨t⟩ samplecount t samplesum rest
      else
        find_update_rate_samples ⟨t⟩ (samplecount + 1) t
          (add_u64 samplesum (sub_u64 t prev)) rest := by
  simp [find_update_rate_samples, IMU2Counter.handle_msg, Nat.mod_eq_of_lt ht, hc]

/-- The differences of consecutive stamps add up, modulo `2^64`, to the difference
of the last and the first. -/
theorem add_sub_u64_telescope (samplesum prev t x : Nat) :
    add_u64 (add_u64 samplesum (sub_u64 t prev)) (sub_u64 x t) =
      add_u64 samplesum (sub_u64 x prev) := by
  unfold add_u64 sub_u64 UINT64_MOD
  omega

/-- The sampling loop past the baseline, on IMU2 messages with non-zero stamps:
every message is counted until ten are, and the sum grows by the difference,
modulo `2^64`, of the last counted stamp and the stamp before the first. -/
theorem find_update_rate_samples_counted (ts : List Nat) :
    ∀ (reader : IMU2Counter) (samplecount prev samplesum : Nat),
      0 < prev → prev < UINT64_MOD → samplesum < UINT64_MOD → samplecount ≤ 10 →
      (∀ t ∈ ts, 0 < t ∧ t < UINT64_MOD) →
      find_update_rate_samples reader samplecount prev samplesum
          (ts.map (fun t => ({ type := "IMU2", TimeUS := some t } : LogRecord))) =
        (min (samplecount + ts.length) 10,
          add_u64 samplesum
            (sub_u64 ((prev :: ts).getD (min ts.length (10 - samplecount)) 0) prev)) := by
  induction ts with
  | nil =>
    intro reader c prev sum hp hp2 hs hc _
    have e2 : add_u64 sum (sub_u64 prev prev) = sum := by
      unfold add_u64 sub_u64 UINT64_MOD at *
      omega
    simp [find_update_rate_samples, e2, hc]
  | cons t rest ih =>
    intro reader c prev sum hp hp2 hs hc hts
    have ht := hts t (List.mem_cons_self _ _)
    have hrest : ∀ u ∈ rest, 0 < u ∧ u < UINT64_MOD :=
      fun u hu => hts u (List.mem_cons_of_mem _ hu)
    by_cases hc10 : c < 10
    · have hsum : add_u64 sum (sub_u64 t prev) < UINT64_MOD := by
        unfold add_u64 UINT64_MOD
        omega
      have hidx : min (t :: rest).length (10 - c) = min rest.length (10 - (c + 1)) + 1 := by
        simp only [List.length_cons]
        omega
      rw [List.map_cons, find_update_rate_samples_imu2 reader c prev sum t _ ht.2 hc10,
        if_neg (by omega), ih ⟨t⟩ (c + 1) t _ ht.1 ht.2 hsum (by omega) hrest, hidx,
        List.getD_cons_succ, add_sub_u64_telescope sum prev t _]
      congr 1
      simp only [List.length_cons]
      omega
    · have hc' : c = 10 := by omega
      subst hc'
      have e2 : add_u64 sum (sub_u64 prev prev) = sum := by
        unfold add_u64 sub_u64 UINT64_MOD at *
        omega
      simp [find_update_rate_samples, e2]

/-- The claim C13 as stated fails: eleven IMU2 messages that all carry the stamp
1000 give a sample count of ten, every one of the ten intervals being zero, and
`find_update_rate` then divides by a zero mean. -/
theorem repeated_timestamp_is_counted :
    find_update_rate_samples ⟨0⟩ 0 0 0 (imu2_log 0 11) = (10, 0) ∧
      find_update_rate (some (imu2_log 0 11)) ⟨0⟩ = Outcome.division_by_zero := by
  decide

/-- C13, amended. What the sampling loop of `find_update_rate` counts.  A stamp
read while `prev` is zero (the first one) serves as the baseline and contributes
no interval.  Every IMU2 message read while `prev` is not zero is counted as a
sample, whatever its stamp: the count grows by one and the sum by the difference
to the previous stamp modulo `2^64`, which is zero for a repeated stamp.  So for
IMU2 messages with non-zero stamps `t0, t1, ..., tk` the count is the smaller of
`k` and 10, and the sum is the last counted stamp minus `t0` modulo `2^64`. -/
theorem samples_count_every_interval (reader : IMU2Counter) (t0 : Nat) (ts : List Nat)
    (h0 : 0 < t0) (h1 : t0 < UINT64_MOD) (hts : ∀ t ∈ ts, 0 < t ∧ t < UINT64_MOD) :
    (∀ (rd : IMU2Counter) (samplecount samplesum t : Nat) (rest : List LogRecord),
      samplecount < 10 → t < UINT64_MOD →
      find_update_rate_samples rd samplecount 0 samplesum
          ({ type := "IMU2", TimeUS := some t } :: rest) =
        find_update_rate_samples ⟨t⟩ samplecount t samplesum rest) ∧
    (∀ (rd : IMU2Counter) (samplecount prev samplesum t : Nat) (rest : List LogRecord),
      samplecount < 10 → 0 < prev → t < UINT64_MOD →
      find_update_rate_samples rd samplecount prev samplesum
          ({ type := "IMU2", TimeUS := some t } :: rest) =
        find_update_rate_samples ⟨t⟩ (samplecount + 1) t
          (add_u64 samplesum (sub_u64 t prev)) rest) ∧
    find_update_rate_samples reader 0 0 0
        ((t0 :: ts).map (fun t => ({ type := "IMU2", TimeUS := some t } : LogRecord))) =
      (min ts.length 10, sub_u64 ((t0 :: ts).getD (min ts.length 10) 0) t0) := by
  refine ⟨?_, ?_, ?_⟩
  · intro rd c sum t rest hc ht
    rw [find_update_rate_samples_imu2 rd c 0 sum t rest ht hc, if_pos rfl]
  · intro rd c prev sum t rest hc hp ht
    rw [find_update_rate_samples_imu2 rd c prev sum t rest ht hc, if_neg (by omega)]
  · rw [List.map_cons, find_update_rate_samples_imu2 reader 0 0 0 t0 _ h1 (by omega),
      if_pos rfl,
      find_update_rate_samples_counted ts ⟨t0⟩ 0 t0 0 h0 h1 (by unfold UINT64_MOD; omega)
        (by omega) hts]
    have e : ∀ y, add_u64 0 (sub_u64 y t0) = sub_u64 y t0 := by
      intro y
      unfold add_u64 sub_u64 UINT64_MOD
      omega
    simp [e]

/-- The stamps 1000, 1000, 5000, 4000: three samples are counted, the repeated stamp
and the step back included, and their sum is 4000 - 1000. -/
theorem samples_count_every_interval_witness :
    find_update_rate_samples ⟨0⟩ 0 0 0
        (([1000, 1000, 5000, 4000] : List Nat).map
          (fun t => ({ type := "IMU2", TimeUS := some t } : LogRecord))) =
      (min ([1000, 5000, 4000] : List Nat).length 10,
        sub_u64 (([1000, 1000, 5000, 4000] : List Nat).getD
          (min ([1000, 5000, 4000] : List Nat).length 10) 0) 1000) :=
  (samples_count_every_interval ⟨0⟩ 1000 [1000, 5000, 4000] (by decide) (by decide)
    (by decide)).2.2

/-! ## The flag `--no-imt` -/

/-- The claim C14 as stated fails: with `use_imt` cleared, in the run over a `FRAM`
message followed by an `IMU` message the `FRAM` message triggers an estimator
update and sets `have_fram`, and the `IMU` message, which the legacy rule alone
would select, does not trigger. -/
theorem fram_triggers_without_imt :
    (Replay.read_sensors_seq (fun _ _ => true) (Replay.init false (-1) [])
        [{ type := "FRAM" }, { type := "IMU" }]).trace =
        [[Event.have_fram_framing, Event.ahrs_update, Event.log_write], []] ∧
      (Replay.read_sensors_seq (fun _ _ => true) (Replay.init false (-1) [])
        [{ type := "FRAM" }, { type := "IMU" }]).state.have_fram = true := by
  decide

/-- C14, amended. With `use_imt` cleared (`--no-imt`) the alternate inertial path
is disabled and the framed path is not.  For every message sequence handled from
members with `have_imt` and `have_imt2` clear (overrides done or all accepted):
the two flags stay clear and no `IMT` or `IMT2` message triggers an estimator
update; a `FRAM` message still sets `have_fram` and triggers; and, started with
`have_fram` and `have_imu2` clear as well, a message triggers if and only if it is
a `FRAM` message, or no `FRAM` message has come before it and the legacy rule
selects it (an `IMU2` message, or an `IMU` message with no `IMU2` message before
it). -/
theorem no_imt_keeps_fram (sp : String → Nat → Bool) (s : Replay)
    (hok : s.done_parameters = true ∨ ∀ p ∈ s.user_parameters, sp p.name p.value = true)
    (hu : s.use_imt = false) (h2 : s.have_imt = false) (h3 : s.have_imt2 = false) :
    (∀ rs : List LogRecord,
      (Replay.read_sensors_seq sp s rs).state.have_imt = false ∧
        (Replay.read_sensors_seq sp s rs).state.have_imt2 = false) ∧
    (∀ (rs : List LogRecord) (j : Nat) (rj : LogRecord), rs[j]? = some rj →
      (rj.type = "IMT" ∨ rj.type = "IMT2") →
      ∃ ev, (Replay.read_sensors_seq sp s rs).trace[j]? = some ev ∧ Event.ahrs_update ∉ ev) ∧
    (∀ r : LogRecord, r.type = "FRAM" →
      (s.read_sensors sp r).state.have_fram = true ∧
        Event.ahrs_update ∈ (s.read_sensors sp r).events) ∧
    (s.have_fram = false → s.have_imu2 = false →
      ∀ (rs : List LogRecord) (j : Nat) (rj : LogRecord), rs[j]? = some rj →
        ∃ ev, (Replay.read_sensors_seq sp s rs).trace[j]? = some ev ∧
          (Event.ahrs_update ∈ ev ↔
            rj.type = "FRAM" ∨
              ((∀ i ri, i < j → rs[i]? = some ri → ri.type ≠ "FRAM") ∧
                (rj.type = "IMU2" ∨
                  (rj.type = "IMU" ∧
                    ∀ i ri, i < j → rs[i]? = some ri → ri.type ≠ "IMU2"))))) := by
  have hflags : ∀ rs : List LogRecord,
      (Replay.read_sensors_seq sp s rs).state.have_imt = false ∧
        (Replay.read_sensors_seq sp s rs).state.have_imt2 = false := by
    intro rs
    obtain ⟨hx, _⟩ := read_sensors_seq_returns sp rs s hok
    obtain ⟨_, g2, g3, _, _⟩ := read_sensors_seq_flags sp rs s hx
    rw [g2, g3, h2, h3, hu]
    exact ⟨rfl, rfl⟩
  have hstep : ∀ (x : Replay) (r : LogRecord), x.use_imt = false → x.have_imt = false →
      (x.read_sensors sp r).exit = none →
      (Event.ahrs_update ∈ (x.read_sensors sp r).events ↔
        r.type = "FRAM" ∨
          (x.have_fram = false ∧
            (r.type = "IMU2" ∨ (r.type = "IMU" ∧ x.have_imu2 = false)))) := by
    intro x r hxu hx2 hx
    obtain ⟨f1, f2, _, f4, _⟩ := read_sensors_flags sp x r hx
    rw [read_sensors_trigger_iff, run_ahrs_iff, f1, f2, f4, hxu, hx2]
    by_cases hf : r.type = "FRAM"
    · simp [hf, hx]
    · by_cases hi2 : r.type = "IMU2"
      · cases x.have_fram <;> simp [hi2, hx]
      · by_cases hi : r.type = "IMU"
        · cases x.have_fram <;> cases x.have_imu2 <;> simp [hi, hx]
        · simp [hf, hi2, hi, hx]
  have hseq : ∀ (rs : List LogRecord) (j : Nat) (rj : LogRecord), rs[j]? = some rj →
      (Replay.read_sensors_seq sp s rs).trace[j]? =
          some ((Replay.read_sensors_seq sp s (rs.take j)).state.read_sensors sp rj).events ∧
        (Event.ahrs_update ∈
            ((Replay.read_sensors_seq sp s (rs.take j)).state.read_sensors sp rj).events ↔
          rj.type = "FRAM" ∨
            ((Replay.read_sensors_seq sp s (rs.take j)).state.have_fram = false ∧
              (rj.type = "IMU2" ∨
                (rj.type = "IMU" ∧
                  (Replay.read_sensors_seq sp s (rs.take j)).state.have_imu2 = false)))) := by
    intro rs j rj hj
    obtain ⟨_, hok2, htr⟩ := read_sensors_seq_entry sp s rs hok j rj hj
    obtain ⟨u, _, _⟩ := read_sensors_seq_frame sp (rs.take j) s
    exact ⟨htr, hstep _ rj (by rw [u, hu]) (hflags (rs.take j)).1
      (read_sensors_returns sp _ rj (by tauto))⟩
  refine ⟨hflags, ?_, ?_, ?_⟩
  · intro rs j rj hj hr
    obtain ⟨htr, hiff⟩ := hseq rs j rj hj
    refine ⟨_, htr, ?_⟩
    rw [hiff]
    rcases hr with hr | hr <;> simp [hr]
  · intro r hr
    have hx : (s.read_sensors sp r).exit = none := read_sensors_returns sp s r (by tauto)
    obtain ⟨_, _, _, f4, _⟩ := read_sensors_flags sp s r hx
    exact ⟨by simp [f4, hr], (hstep s r hu h2 hx).2 (Or.inl hr)⟩
  · intro h1 h4 rs j rj hj
    obtain ⟨htr, hiff⟩ := hseq rs j rj hj
    obtain ⟨hx0, _, _⟩ := read_sensors_seq_entry sp s rs hok j rj hj
    obtain ⟨g1, _, _, g4, _⟩ := read_sensors_seq_flags sp (rs.take j) s hx0
    rw [h1] at g4
    rw [h4] at g1
    refine ⟨_, htr, ?_⟩
    rw [hiff, g1, g4]
    simp only [Bool.false_or, any_take_eq_false_iff, streq_false_iff]

/-- With `use_imt` cleared, the `IMT` message at the head of `IMT`, `IMU` does not
trigger, and a `FRAM` message sets `have_fram` and triggers. -/
theorem no_imt_keeps_fram_witness :
    (∃ ev, (Replay.read_sensors_seq (fun _ _ => true) (Replay.init false (-1) [])
        [{ type := "IMT" }, { type := "IMU" }]).trace[0]? = some ev ∧
      Event.ahrs_update ∉ ev) ∧
    ((Replay.init false (-1) []).read_sensors (fun _ _ => true)
        { type := "FRAM" }).state.have_fram = true ∧
    Event.ahrs_update ∈
      ((Replay.init false (-1) []).read_sensors (fun _ _ => true) { type := "FRAM" }).events :=
  ⟨(no_imt_keeps_fram (fun _ _ => true) (Replay.init false (-1) [])
      (Or.inr (by simp [Replay.init])) rfl rfl rfl).2.1
      [{ type := "IMT" }, { type := "IMU" }] 0 { type := "IMT" } rfl (Or.inl rfl),
    (no_imt_keeps_fram (fun _ _ => true) (Replay.init false (-1) [])
      (Or.inr (by simp [Replay.init])) rfl rfl rfl).2.2.1 { type := "FRAM" } rfl⟩

end ReplayTool
